import Mathlib

set_option maxRecDepth 100000

/-!
Shallow embedding of the authentication-provider core of the js-sdk repository:
identity derivation (`getAuthMethodId` and its per-type rules), the OAuth
redirect flow (Apple provider), the wallet-signature flow (EthWalletProvider)
and the WebAuthn flow, together with the library functions they use
(keccak-256, EIP-55 address checksumming, base64 variants, URL query parsing,
JSON parsing and JS value semantics).  Machine words are modelled as `Nat`
with explicit masking by `2 ^ 64`; bytes are `Nat` values below 256.
-/

namespace LitSdk

/-- UTF-8 encoding of one character (code point below `0x110000`). -/
def charUtf8 (c : Char) : List Nat :=
  let n := c.toNat
  if n < 128 then [n]
  else if n < 2048 then [192 + n / 64, 128 + n % 64]
  else if n < 65536 then [224 + n / 4096, 128 + n / 64 % 64, 128 + n % 64]
  else [240 + n / 262144, 128 + n / 4096 % 64, 128 + n / 64 % 64, 128 + n % 64]

/-- UTF-8 byte sequence of a string; the embedding of `ethers.utils.toUtf8Bytes`. -/
def utf8Bytes (s : String) : List Nat := s.data.bind charUtf8

/-- Character-level splitter worker (kernel-reducible, unlike the position-based core
`String` functions). -/
def splitChAux : Char → List Char → List Char → List String
  | _, [], acc => [String.mk acc.reverse]
  | sep, c :: cs, acc =>
    if c == sep then String.mk acc.reverse :: splitChAux sep cs []
    else splitChAux sep cs (c :: acc)

/-- Split a string on a single-character separator; same semantics as JS
`String.prototype.split` with that separator (empty segments preserved, the empty
string yields one empty segment). -/
def splitOnCh (sep : Char) (s : String) : List String := splitChAux sep s.data []

/-- Join strings with a separator. -/
def joinWith (sep : String) : List String → String
  | [] => ""
  | [x] => x
  | x :: xs => x ++ sep ++ joinWith sep xs

/-- Whether `p` is a prefix of `s` (the embedding of `String.prototype.startsWith`). -/
def strStartsWith (s p : String) : Bool := p.data.isPrefixOf s.data

/-- ASCII lowercasing (the embedding of `String.prototype.toLowerCase`; every string it
is applied to in the embedded flows is ASCII). -/
def strToLower (s : String) : String :=
  String.mk (s.data.map fun c => if 'A' ≤ c && c ≤ 'Z' then Char.ofNat (c.toNat + 32) else c)

namespace Keccak

/-- All-ones 64-bit mask. -/
def mask64 : Nat := 18446744073709551615

/-- Rotate a 64-bit lane left by `n` (0 ≤ n < 64). -/
def rotl (x n : Nat) : Nat := ((x <<< n) ||| (x >>> (64 - n))) &&& mask64

/-- Lane accessor for the 5 × 5 Keccak state held as a flat list (index `x + 5y`). -/
def lane (s : List Nat) (x y : Nat) : Nat := s.getD (x % 5 + 5 * (y % 5)) 0

/-- Column parity used by the θ step. -/
def colParity (s : List Nat) (x : Nat) : Nat :=
  lane s x 0 ^^^ lane s x 1 ^^^ lane s x 2 ^^^ lane s x 3 ^^^ lane s x 4

/-- The θ step of Keccak-f[1600]. -/
def theta (s : List Nat) : List Nat :=
  (List.range 25).map fun i =>
    let x := i % 5
    lane s x (i / 5) ^^^ (colParity s ((x + 4) % 5) ^^^ rotl (colParity s ((x + 1) % 5)) 1)

/-- Rotation offsets, flat index `x + 5y`. -/
def rotOffsets : List Nat :=
  [0, 1, 62, 28, 27] ++ [36, 44, 6, 55, 20] ++ [3, 10, 43, 25, 39] ++
    [41, 45, 15, 21, 8] ++ [18, 2, 61, 56, 14]

/-- The combined ρ and π steps: output lane (X, Y) comes from lane (X + 3Y mod 5, X). -/
def rhoPi (s : List Nat) : List Nat :=
  (List.range 25).map fun i =>
    let X := i % 5
    let Y := i / 5
    let x := (X + 3 * Y) % 5
    rotl (lane s x X) (rotOffsets.getD (x + 5 * X) 0)

/-- The χ step. -/
def chi (b : List Nat) : List Nat :=
  (List.range 25).map fun i =>
    let X := i % 5
    let Y := i / 5
    lane b X Y ^^^ (((lane b (X + 1) Y) ^^^ mask64) &&& lane b (X + 2) Y)

/-- Round constants of Keccak-f[1600]. -/
def roundConstants : List Nat :=
  [0x0000000000000001, 0x0000000000008082, 0x800000000000808a, 0x8000000080008000,
   0x000000000000808b, 0x0000000080000001, 0x8000000080008081, 0x8000000000008009,
   0x000000000000008a, 0x0000000000000088, 0x0000000080008009, 0x000000008000000a,
   0x000000008000808b, 0x800000000000008b, 0x8000000000008089, 0x8000000000008003,
   0x8000000000008002, 0x8000000000000080, 0x000000000000800a, 0x800000008000000a,
   0x8000000080008081, 0x8000000000008080, 0x0000000080000001, 0x8000000080008008]

/-- One round: θ, ρ, π, χ, ι. -/
def keccakRound (s : List Nat) (rc : Nat) : List Nat :=
  match chi (rhoPi (theta s)) with
  | [] => []
  | a :: rest => (a ^^^ rc) :: rest

/-- The full Keccak-f[1600] permutation (24 rounds). -/
def keccakF (s : List Nat) : List Nat := roundConstants.foldl keccakRound s

/-- Multi-rate padding pad10*1 for rate 136 bytes with Keccak domain byte `0x01`. -/
def pad (msg : List Nat) : List Nat :=
  let m := msg.length % 136
  if m == 135 then msg ++ [0x81]
  else msg ++ [0x01] ++ List.replicate (134 - m) 0 ++ [0x80]

/-- Little-endian interpretation of up to 8 bytes as a 64-bit lane. -/
def laneOfBytes (bs : List Nat) : Nat := bs.foldr (fun b acc => b + 256 * acc) 0

/-- XOR one 136-byte block into the state and permute. -/
def absorbBlock (s : List Nat) (block : List Nat) : List Nat :=
  keccakF ((List.range 25).map fun i =>
    s.getD i 0 ^^^ laneOfBytes (((block.drop (8 * i)).take 8)))

/-- Split a byte list into 136-byte blocks (fuel-driven structural recursion). -/
def chunks136 : Nat → List Nat → List (List Nat)
  | 0, _ => []
  | _, [] => []
  | fuel + 1, xs => xs.take 136 :: chunks136 fuel (xs.drop 136)

/-- Little-endian bytes of one lane. -/
def laneBytes (n : Nat) : List Nat := (List.range 8).map fun i => (n >>> (8 * i)) % 256

/-- Keccak-256 digest (32 bytes) of a byte sequence. -/
def keccak256 (msg : List Nat) : List Nat :=
  let padded := pad msg
  let final := (chunks136 (padded.length + 1) padded).foldl absorbBlock (List.replicate 25 0)
  ((final.take 4).map laneBytes).join

end Keccak

/-- Lowercase hex digit of a value below 16. -/
def hexDigit (n : Nat) : Char := if n < 10 then Char.ofNat (48 + n) else Char.ofNat (87 + n)

/-- Two lowercase hex digits of one byte. -/
def byteHex (b : Nat) : List Char := [hexDigit (b / 16), hexDigit (b % 16)]

/-- Lowercase hex string of a byte sequence. -/
def bytesToHex (bs : List Nat) : String := String.mk (bs.bind byteHex)

/-- Embedding of `ethers.utils.keccak256` applied to a byte sequence: the digest as a
`0x`-prefixed lowercase hex string. -/
def keccak256Hex (bs : List Nat) : String := "0x" ++ bytesToHex (Keccak.keccak256 bs)

/-- The `AuthMethodType` enumeration.  Modelled from the spec: the enum itself lives in
the external `@lit-protocol/constants` package, which is not among the provided sources;
§3 of the spec lists the closed enumeration `EthWallet, WebAuthn, AppleJwt, GoogleJwt,
Discord, OTP, ...`; the `other` constructor stands for the further (unrecognized) values. -/
inductive AuthMethodType where
  | ethWallet
  | webAuthn
  | appleJwt
  | googleJwt
  | discord
  | otp
  | other (n : Nat)
deriving DecidableEq

/-- Error values of the embedding: each constructor stands for one `throw` site (or one
kind of thrown library error) reachable in the embedded code. -/
inductive JsError where
  | syntaxError
  | typeError
  | invalidTokenLength
  | jwtInvalid
  | unsupportedAuthMethod (t : AuthMethodType)
  | discordFetchFailed
  | loginRouteMissing (provider : String)
  | redirectMismatch (href redirectUri : String)
  | providerError (e : String)
  | providerMismatch (p : Option String)
  | invalidState (s : Option String)
  | missingIdToken
  | authSigUndefined
  | invalidAddress (a : String)
  | badChecksum (a : String)
  | invalidCharacterError
  | invalidArrayify (v : String)
  | uriError
  | stateError (msg : String)
  | remoteError (msg : String)
deriving DecidableEq

deriving instance DecidableEq for Except

/-- Whether an `Except` value is a success. -/
def exOk {ε α : Type} : Except ε α → Bool
  | .ok _ => true
  | .error _ => false

/-- Lowercasing of one hex character (the ASCII letters A-F). -/
def lowerHexChar (c : Char) : Char :=
  if 'A' ≤ c && c ≤ 'F' then Char.ofNat (c.toNat + 32) else c

/-- Whether a character is a hex digit (either case). -/
def isHexCh (c : Char) : Bool :=
  ('0' ≤ c && c ≤ '9') || ('a' ≤ c && c ≤ 'f') || ('A' ≤ c && c ≤ 'F')

/-- Nibble `i` (big-endian nibble order) of a byte sequence. -/
def nibbleAt (hash : List Nat) (i : Nat) : Nat :=
  if i % 2 == 0 then hash.getD (i / 2) 0 / 16 else hash.getD (i / 2) 0 % 16

/-- EIP-55 checksum casing of a 40-character lowercase hex address body: a hex letter is
uppercased exactly when the corresponding nibble of the Keccak-256 digest of the ASCII
bytes of the lowercase body is at least 8. -/
def eip55Checksum (lower : List Char) : List Char :=
  let hash := Keccak.keccak256 (lower.map Char.toNat)
  (List.range lower.length).map fun i =>
    let c := lower.getD i ' '
    if ('a' ≤ c && c ≤ 'f') && decide (8 ≤ nibbleAt hash i) then Char.ofNat (c.toNat - 32)
    else c

/-- Embedding of `ethers.utils.getAddress`: accepts a 40-hex-digit address with or
without the `0x` prefix, returns the EIP-55 checksummed form, and rejects a mixed-case
input whose casing is not the correct checksum casing (the ICAP branch of ethers is
omitted, as nothing in the embedded sources reaches it). -/
def getAddress (a : String) : Except JsError String :=
  let cs := a.data
  let body? : Option (List Char) :=
    if cs.length == 42 && cs.take 2 == ['0', 'x'] then some (cs.drop 2)
    else if cs.length == 40 then some cs
    else none
  match body? with
  | none => .error (.invalidAddress a)
  | some body =>
    if body.all isHexCh then
      let result := "0x" ++ String.mk (eip55Checksum (body.map lowerHexChar))
      let hasUpper := body.any fun c => 'A' ≤ c && c ≤ 'F'
      let hasLower := body.any fun c => 'a' ≤ c && c ≤ 'f'
      if hasUpper && hasLower && ("0x" ++ String.mk body) != result then
        .error (.badChecksum a)
      else .ok result
    else .error (.invalidAddress a)

/-! JS values as produced by `JSON.parse`, plus `undefined`.  Number literals keep
their lexeme: no embedded code inspects numeric values, only their syntax.  The
array and object spines are mutual inductives (rather than nested `List`s) so that
recursion over them stays structural and kernel-reducible. -/
mutual
inductive JsValue where
  | undefined
  | null
  | bool (b : Bool)
  | num (lit : String)
  | str (s : String)
  | arr (xs : JsArr)
  | obj (fs : JsObj)
inductive JsArr where
  | nil
  | cons (hd : JsValue) (tl : JsArr)
inductive JsObj where
  | nil
  | cons (key : String) (val : JsValue) (tl : JsObj)
end

/-- Field lookup in a JS object. -/
def jsObjGet : JsObj → String → Option JsValue
  | .nil, _ => none
  | .cons k v tl, key => if k == key then some v else jsObjGet tl key

/-- Field assignment in a JS object: replaces an existing key in place, else appends. -/
def jsObjSet : JsObj → String → JsValue → JsObj
  | .nil, key, v => .cons key v .nil
  | .cons k w tl, key, v =>
    if k == key then .cons k v tl else .cons k w (jsObjSet tl key v)

/-- Property access `v[k]`: throws `TypeError` on `null`/`undefined`, looks the field up
on an object, and yields `undefined` on every other value (as on JS primitives). -/
def jsGetProp (v : JsValue) (k : String) : Except JsError JsValue :=
  match v with
  | .undefined => .error .typeError
  | .null => .error .typeError
  | .obj fs => .ok ((jsObjGet fs k).getD .undefined)
  | _ => .ok .undefined

/-- JS truthiness.  For numbers only the literal `0` is treated as falsy; no embedded
code evaluates the truthiness of a non-trivial numeric value. -/
def jsTruthy : JsValue → Bool
  | .undefined => false
  | .null => false
  | .bool b => b
  | .num lit => lit != "0"
  | .str s => s != ""
  | .arr _ => true
  | .obj _ => true

/-! String conversion as performed by JS template interpolation: `undefined` and `null`
print as their names, arrays join their elements with commas (nullish elements as the
empty string), and plain objects print as `[object Object]`. -/
mutual
def jsToStr : JsValue → String
  | .undefined => "undefined"
  | .null => "null"
  | .bool true => "true"
  | .bool false => "false"
  | .num lit => lit
  | .str s => s
  | .arr xs => jsArrStr xs
  | .obj _ => "[object Object]"
def jsArrStr : JsArr → String
  | .nil => ""
  | .cons v tl =>
    (match v with
     | .undefined => ""
     | .null => ""
     | w => jsToStr w) ++ (match tl with | .nil => "" | _ => ",") ++ jsArrStr tl
end

/-! The value-level effect of a `JSON.parse(JSON.stringify(x))` round trip on parsed
values: `undefined` object fields disappear and `undefined` array elements become
`null`. -/
mutual
def stripUndefV : JsValue → JsValue
  | .arr xs => .arr (stripUndefArr xs)
  | .obj fs => .obj (stripUndefObj fs)
  | v => v
def stripUndefArr : JsArr → JsArr
  | .nil => .nil
  | .cons v tl =>
    .cons (match v with | .undefined => .null | w => stripUndefV w) (stripUndefArr tl)
def stripUndefObj : JsObj → JsObj
  | .nil => .nil
  | .cons k v tl =>
    match v with
    | .undefined => stripUndefObj tl
    | w => .cons k (stripUndefV w) (stripUndefObj tl)
end

/-- JSON escaping of one character. -/
def jsonEscapeChar (c : Char) : List Char :=
  if c = '"' then ['\\', '"']
  else if c = '\\' then ['\\', '\\']
  else if c = '\n' then ['\\', 'n']
  else if c = '\r' then ['\\', 'r']
  else if c = '\t' then ['\\', 't']
  else if c.toNat == 8 then ['\\', 'b']
  else if c.toNat == 12 then ['\\', 'f']
  else if c.toNat < 32 then
    ['\\', 'u', '0', '0', hexDigit (c.toNat / 16), hexDigit (c.toNat % 16)]
  else [c]

/-- A JSON string literal for `s`. -/
def jsonQuote (s : String) : String := "\"" ++ String.mk (s.data.bind jsonEscapeChar) ++ "\""

/-! Serialization of a JS value as by `JSON.stringify` (object fields holding
`undefined` are dropped; an `undefined` array element serializes as `null`). -/
mutual
def jsonStringifyV : JsValue → String
  | .undefined => "null"
  | .null => "null"
  | .bool true => "true"
  | .bool false => "false"
  | .num lit => lit
  | .str s => jsonQuote s
  | .arr xs => "[" ++ jsonStringifyArr xs ++ "]"
  | .obj fs => "\x7b" ++ jsonStringifyObj fs ++ "\x7d"
def jsonStringifyArr : JsArr → String
  | .nil => ""
  | .cons v tl =>
    jsonStringifyV v ++ (match tl with | .nil => "" | _ => ",") ++ jsonStringifyArr tl
def jsonStringifyObj : JsObj → String
  | .nil => ""
  | .cons k v tl =>
    match v with
    | .undefined => jsonStringifyObj tl
    | w =>
      let rest := jsonStringifyObj tl
      jsonQuote k ++ ":" ++ jsonStringifyV w ++ (if rest = "" then "" else ",") ++ rest
end

/-- Hex digit value of a character. -/
def hexVal (c : Char) : Option Nat :=
  if '0' ≤ c && c ≤ '9' then some (c.toNat - 48)
  else if 'a' ≤ c && c ≤ 'f' then some (c.toNat - 87)
  else if 'A' ≤ c && c ≤ 'F' then some (c.toNat - 55)
  else none

/-- Skip JSON whitespace. -/
def skipWs : List Char → List Char
  | [] => []
  | c :: cs =>
    if c.toNat == 32 || c.toNat == 9 || c.toNat == 10 || c.toNat == 13 then skipWs cs
    else c :: cs

/-- Parse the body of a JSON string literal (the opening quote already consumed),
returning the decoded characters and the rest of the input.  Surrogate-pair `\u`
escapes combine into one scalar value, as in JS. -/
def parseStrChars : List Char → Option (List Char × List Char)
  | [] => none
  | '"' :: cs => some ([], cs)
  | '\\' :: 'u' :: a :: b :: c :: d :: cs =>
    (match hexVal a, hexVal b, hexVal c, hexVal d with
     | some ha, some hb, some hc, some hd =>
       let code := ((ha * 16 + hb) * 16 + hc) * 16 + hd
       if 55296 ≤ code && code ≤ 56319 then
         match cs with
         | '\\' :: 'u' :: a2 :: b2 :: c2 :: d2 :: cs2 =>
           (match hexVal a2, hexVal b2, hexVal c2, hexVal d2 with
            | some h2a, some h2b, some h2c, some h2d =>
              let code2 := ((h2a * 16 + h2b) * 16 + h2c) * 16 + h2d
              if 56320 ≤ code2 && code2 ≤ 57343 then
                (parseStrChars cs2).map fun r =>
                  (Char.ofNat (65536 + (code - 55296) * 1024 + (code2 - 56320)) :: r.1, r.2)
              else none
            | _, _, _, _ => none)
         | _ => none
       else (parseStrChars cs).map fun r => (Char.ofNat code :: r.1, r.2)
     | _, _, _, _ => none)
  | '\\' :: e :: cs =>
    (match
       (if e == '"' then some '"'
        else if e == '\\' then some '\\'
        else if e == '/' then some '/'
        else if e == 'b' then some (Char.ofNat 8)
        else if e == 'f' then some (Char.ofNat 12)
        else if e == 'n' then some '\n'
        else if e == 'r' then some '\r'
        else if e == 't' then some '\t'
        else none : Option Char) with
     | some ch => (parseStrChars cs).map fun r => (ch :: r.1, r.2)
     | none => none)
  | c :: cs =>
    if c.toNat < 32 then none
    else (parseStrChars cs).map fun r => (c :: r.1, r.2)

/-- Parse an optional JSON fraction part, keeping its lexeme. -/
def parseFrac : List Char → Option (List Char × List Char)
  | '.' :: t =>
    let ds := t.takeWhile (·.isDigit)
    if ds.isEmpty then none else some ('.' :: ds, t.dropWhile (·.isDigit))
  | cs => some ([], cs)

/-- Parse an optional JSON exponent part, keeping its lexeme. -/
def parseExp : List Char → Option (List Char × List Char)
  | [] => some ([], [])
  | e :: t =>
    if e == 'e' || e == 'E' then
      let (sign, t2) : List Char × List Char :=
        match t with
        | '+' :: u => (['+'], u)
        | '-' :: u => (['-'], u)
        | _ => ([], t)
      let ds := t2.takeWhile (·.isDigit)
      if ds.isEmpty then none else some (e :: sign ++ ds, t2.dropWhile (·.isDigit))
    else some ([], e :: t)

/-- Parse a JSON number, keeping its lexeme. -/
def parseNumLexeme (cs : List Char) : Option (List Char × List Char) :=
  let (neg, cs1) : List Char × List Char :=
    match cs with
    | '-' :: t => (['-'], t)
    | _ => ([], cs)
  let intPart := cs1.takeWhile (·.isDigit)
  let rest1 := cs1.dropWhile (·.isDigit)
  if intPart.isEmpty then none
  else if intPart.length > 1 && intPart.headD 'x' == '0' then none
  else
    match parseFrac rest1 with
    | none => none
    | some (frac, rest2) =>
      match parseExp rest2 with
      | none => none
      | some (ex, rest3) => some (neg ++ intPart ++ frac ++ ex, rest3)

/-- Conversion of a plain list into a JS array spine. -/
def toJsArr : List JsValue → JsArr
  | [] => .nil
  | v :: vs => .cons v (toJsArr vs)

/-- Sequential field assignment, as JS object member evaluation. -/
def toJsObjAux : JsObj → List (String × JsValue) → JsObj
  | o, [] => o
  | o, (k, v) :: t => toJsObjAux (jsObjSet o k v) t

/-- Conversion of a member list into a JS object (later duplicates overwrite). -/
def toJsObj (l : List (String × JsValue)) : JsObj := toJsObjAux .nil l

/-- Parser modes of the JSON recursive-descent parser: a single value, the element list
of an array, or the member list of an object. -/
inductive PMode where
  | val
  | arrElems (acc : List JsValue)
  | objMembers (acc : List (String × JsValue))

/-- Fuel-driven JSON parser core.  The fuel decreases on every self-call, and
`2 * length + 8` fuel always suffices since at least one input character is consumed
per two recursion steps. -/
def parseP : Nat → PMode → List Char → Option (JsValue × List Char)
  | 0, _, _ => none
  | fuel + 1, .val, cs =>
    (match skipWs cs with
     | [] => none
     | '"' :: cs1 => (parseStrChars cs1).map fun r => (.str (String.mk r.1), r.2)
     | '[' :: cs1 =>
       (match skipWs cs1 with
        | ']' :: cs2 => some (.arr .nil, cs2)
        | cs2 => parseP fuel (.arrElems []) cs2)
     | '\x7b' :: cs1 =>
       (match skipWs cs1 with
        | '\x7d' :: cs2 => some (.obj .nil, cs2)
        | cs2 => parseP fuel (.objMembers []) cs2)
     | 't' :: 'r' :: 'u' :: 'e' :: cs1 => some (.bool true, cs1)
     | 'f' :: 'a' :: 'l' :: 's' :: 'e' :: cs1 => some (.bool false, cs1)
     | 'n' :: 'u' :: 'l' :: 'l' :: cs1 => some (.null, cs1)
     | cs1 => (parseNumLexeme cs1).map fun r => (.num (String.mk r.1), r.2))
  | fuel + 1, .arrElems acc, cs =>
    (match parseP fuel .val cs with
     | none => none
     | some (v, cs1) =>
       match skipWs cs1 with
       | ',' :: cs2 => parseP fuel (.arrElems (v :: acc)) cs2
       | ']' :: cs2 => some (.arr (toJsArr (v :: acc).reverse), cs2)
       | _ => none)
  | fuel + 1, .objMembers acc, cs =>
    (match skipWs cs with
     | '"' :: cs1 =>
       (match parseStrChars cs1 with
        | none => none
        | some (kcs, cs2) =>
          match skipWs cs2 with
          | ':' :: cs3 =>
            (match parseP fuel .val cs3 with
             | none => none
             | some (v, cs4) =>
               match skipWs cs4 with
               | ',' :: cs5 => parseP fuel (.objMembers ((String.mk kcs, v) :: acc)) cs5
               | '\x7d' :: cs5 => some (.obj (toJsObj ((String.mk kcs, v) :: acc).reverse), cs5)
               | _ => none)
          | _ => none)
     | _ => none)

/-- Embedding of `JSON.parse`: a failure models the thrown `SyntaxError`. -/
def jsonParse (s : String) : Except JsError JsValue :=
  match parseP (2 * s.length + 8) .val s.data with
  | some (v, rest) => if (skipWs rest).isEmpty then .ok v else .error .syntaxError
  | none => .error .syntaxError

/-- Character value in the base64 alphabets; lenient, mapping both the standard and the
url-safe variants (Node accepts both). -/
def b64IndexLenient (c : Char) : Option Nat :=
  if 'A' ≤ c && c ≤ 'Z' then some (c.toNat - 65)
  else if 'a' ≤ c && c ≤ 'z' then some (c.toNat - 71)
  else if '0' ≤ c && c ≤ '9' then some (c.toNat + 4)
  else if c == '+' || c == '-' then some 62
  else if c == '/' || c == '_' then some 63
  else none

/-- Decode groups of base64 character values (4 values to 3 bytes; a trailing group of
3 yields 2 bytes, of 2 yields 1 byte, and a lone value yields nothing). -/
def b64Quads : List Nat → List Nat
  | a :: b :: c :: d :: rest =>
    let n := ((a * 64 + b) * 64 + c) * 64 + d
    (n >>> 16) % 256 :: (n >>> 8) % 256 :: n % 256 :: b64Quads rest
  | [a, b, c] =>
    let n := (a * 64 + b) * 64 + c
    [(n >>> 10) % 256, (n >>> 2) % 256]
  | [a, b] => [(a * 64 + b) >>> 4]
  | [_] => []
  | [] => []

/-- Node's lenient base64 decoder (`Buffer.from(s, 'base64')`): characters outside the
base64 alphabets (including `=` padding and whitespace) are skipped. -/
def nodeB64Decode (s : String) : List Nat := b64Quads (s.data.filterMap b64IndexLenient)

/-- Whether a character belongs to the standard base64 alphabet. -/
def isB64Std (c : Char) : Bool :=
  ('A' ≤ c && c ≤ 'Z') || ('a' ≤ c && c ≤ 'z') || ('0' ≤ c && c ≤ '9') || c == '+' || c == '/'

/-- Embedding of `window.atob` (the WHATWG forgiving-base64 decoder): ASCII whitespace
is stripped, up to two trailing `=` are allowed when the length is a multiple of four,
a remaining length of 1 mod 4 or any character outside the standard alphabet throws
`InvalidCharacterError`; the result is the byte string. -/
def atob (s : String) : Except JsError String :=
  let cs := s.data.filter fun c =>
    !(c.toNat == 9 || c.toNat == 10 || c.toNat == 12 || c.toNat == 13 || c.toNat == 32)
  let cs := if cs.length % 4 == 0 && cs.getLast? == some '=' then cs.dropLast else cs
  let cs := if cs.getLast? == some '=' then cs.dropLast else cs
  if cs.length % 4 == 1 then .error .invalidCharacterError
  else if cs.all isB64Std then
    .ok (String.mk ((b64Quads (cs.filterMap b64IndexLenient)).map Char.ofNat))
  else .error .invalidCharacterError

/-- Standard base64 alphabet character of a 6-bit value. -/
def b64Char (n : Nat) : Char :=
  if n < 26 then Char.ofNat (65 + n)
  else if n < 52 then Char.ofNat (97 + n - 26)
  else if n < 62 then Char.ofNat (48 + n - 52)
  else if n == 62 then '+' else '/'

/-- Url-safe base64 alphabet character of a 6-bit value. -/
def b64urlChar (n : Nat) : Char :=
  if n < 26 then Char.ofNat (65 + n)
  else if n < 52 then Char.ofNat (97 + n - 26)
  else if n < 62 then Char.ofNat (48 + n - 52)
  else if n == 62 then '-' else '_'

/-- Base64 encoding of a byte sequence with a choice of alphabet and padding. -/
def b64EncTriples (padded : Bool) (alph : Nat → Char) : List Nat → List Char
  | a :: b :: c :: rest =>
    alph (a >>> 2) :: alph ((a % 4) * 16 + (b >>> 4)) :: alph ((b % 16) * 4 + (c >>> 6)) ::
      alph (c % 64) :: b64EncTriples padded alph rest
  | [a, b] =>
    alph (a >>> 2) :: alph ((a % 4) * 16 + (b >>> 4)) :: alph ((b % 16) * 4) ::
      (if padded then ['='] else [])
  | [a] => alph (a >>> 2) :: alph ((a % 4) * 16) :: (if padded then ['=', '='] else [])
  | [] => []

/-- Embedding of the `base64url` package encoder applied to bytes: url-safe alphabet,
no padding. -/
def b64urlEncode (bs : List Nat) : String := String.mk (b64EncTriples false b64urlChar bs)

/-- Embedding of `base64url.encode` applied to a string (UTF-8 bytes of the string). -/
def b64urlEncodeStr (s : String) : String := b64urlEncode (utf8Bytes s)

/-- Standard base64 with padding, of a byte sequence. -/
def stdB64 (bs : List Nat) : String := String.mk (b64EncTriples true b64Char bs)

/-- Embedding of `window.btoa`: characters above `0xFF` throw `InvalidCharacterError`;
otherwise the character values are base64-encoded with padding. -/
def btoa (s : String) : Except JsError String :=
  if s.data.all (fun c => c.toNat < 256) then
    .ok (stdB64 (s.data.map Char.toNat))
  else .error .invalidCharacterError

/-- Strict base64url decoding as used for JWT segments: both alphabets accepted (the
decoder in `jose` folds `-_` onto `+/` before decoding), up to two trailing padding
characters tolerated, any other foreign character or a length of 1 mod 4 rejected. -/
def b64urlDecodeStrict (s : String) : Option (List Nat) :=
  let cs := s.data
  let cs := if cs.getLast? == some '=' then cs.dropLast else cs
  let cs := if cs.getLast? == some '=' then cs.dropLast else cs
  if cs.length % 4 == 1 then none
  else if cs.all (fun c => (b64IndexLenient c).isSome) then
    some (b64Quads (cs.filterMap b64IndexLenient))
  else none

/-- Strict UTF-8 decoding (rejecting overlong forms, surrogates, and values beyond
`0x10FFFF`); `none` on any malformed sequence. -/
def utf8DecodeStrict : List Nat → Option (List Char)
  | [] => some []
  | b :: rest =>
    if b < 128 then (utf8DecodeStrict rest).map (Char.ofNat b :: ·)
    else if 194 ≤ b && b ≤ 223 then
      match rest with
      | b1 :: rest1 =>
        if 128 ≤ b1 && b1 ≤ 191 then
          (utf8DecodeStrict rest1).map (Char.ofNat ((b - 192) * 64 + (b1 - 128)) :: ·)
        else none
      | [] => none
    else if 224 ≤ b && b ≤ 239 then
      match rest with
      | b1 :: b2 :: rest2 =>
        let lo1 := if b == 224 then 160 else 128
        let hi1 := if b == 237 then 159 else 191
        if lo1 ≤ b1 && b1 ≤ hi1 && 128 ≤ b2 && b2 ≤ 191 then
          (utf8DecodeStrict rest2).map
            (Char.ofNat ((b - 224) * 4096 + (b1 - 128) * 64 + (b2 - 128)) :: ·)
        else none
      | _ => none
    else if 240 ≤ b && b ≤ 244 then
      match rest with
      | b1 :: b2 :: b3 :: rest3 =>
        let lo1 := if b == 240 then 144 else 128
        let hi1 := if b == 244 then 143 else 191
        if lo1 ≤ b1 && b1 ≤ hi1 && 128 ≤ b2 && b2 ≤ 191 && 128 ≤ b3 && b3 ≤ 191 then
          (utf8DecodeStrict rest3).map
            (Char.ofNat ((b - 240) * 262144 + (b1 - 128) * 4096 + (b2 - 128) * 64 + (b3 - 128)) :: ·)
        else none
      | _ => none
    else none

/-- Fuel-driven worker for lenient UTF-8 decoding: malformed bytes become U+FFFD and
decoding resumes at the following byte (as the WHATWG decoder used by
`URLSearchParams`); every step consumes at least one byte, so `length + 1` fuel
suffices. -/
def utf8DecodeLenientF : Nat → List Nat → List Char
  | 0, _ => []
  | _, [] => []
  | fuel + 1, b :: rest =>
    if b < 128 then Char.ofNat b :: utf8DecodeLenientF fuel rest
    else if 194 ≤ b && b ≤ 223 then
      match rest with
      | b1 :: rest1 =>
        if 128 ≤ b1 && b1 ≤ 191 then
          Char.ofNat ((b - 192) * 64 + (b1 - 128)) :: utf8DecodeLenientF fuel rest1
        else Char.ofNat 65533 :: utf8DecodeLenientF fuel rest
      | [] => [Char.ofNat 65533]
    else if 224 ≤ b && b ≤ 239 then
      match rest with
      | b1 :: b2 :: rest2 =>
        let lo1 := if b == 224 then 160 else 128
        let hi1 := if b == 237 then 159 else 191
        if lo1 ≤ b1 && b1 ≤ hi1 && 128 ≤ b2 && b2 ≤ 191 then
          Char.ofNat ((b - 224) * 4096 + (b1 - 128) * 64 + (b2 - 128)) ::
            utf8DecodeLenientF fuel rest2
        else Char.ofNat 65533 :: utf8DecodeLenientF fuel rest
      | _ => Char.ofNat 65533 :: utf8DecodeLenientF fuel rest
    else if 240 ≤ b && b ≤ 244 then
      match rest with
      | b1 :: b2 :: b3 :: rest3 =>
        let lo1 := if b == 240 then 144 else 128
        let hi1 := if b == 244 then 143 else 191
        if lo1 ≤ b1 && b1 ≤ hi1 && 128 ≤ b2 && b2 ≤ 191 && 128 ≤ b3 && b3 ≤ 191 then
          Char.ofNat ((b - 240) * 262144 + (b1 - 128) * 4096 + (b2 - 128) * 64 + (b3 - 128)) ::
            utf8DecodeLenientF fuel rest3
        else Char.ofNat 65533 :: utf8DecodeLenientF fuel rest
      | _ => Char.ofNat 65533 :: utf8DecodeLenientF fuel rest
    else Char.ofNat 65533 :: utf8DecodeLenientF fuel rest

/-- Lenient UTF-8 decoding of a byte sequence. -/
def utf8DecodeLenient (bs : List Nat) : List Char := utf8DecodeLenientF (bs.length + 1) bs

/-- Collect one maximal run of percent escapes, failing on a malformed escape. -/
def collectPctBytes : List Char → Option (List Nat × List Char)
  | '%' :: a :: b :: rest =>
    (match hexVal a, hexVal b with
     | some ha, some hb =>
       (match rest with
        | '%' :: _ =>
          (match collectPctBytes rest with
           | some (bs, r) => some ((ha * 16 + hb) :: bs, r)
           | none => none)
        | _ => some ([ha * 16 + hb], rest))
     | _, _ => none)
  | _ => none

/-- Character-level worker of `decodeURIComponent`. -/
def decURIChars : Nat → List Char → Option (List Char)
  | 0, _ => none
  | _, [] => some []
  | fuel + 1, cs@('%' :: _) =>
    (match collectPctBytes cs with
     | none => none
     | some (bs, rest) =>
       match utf8DecodeStrict bs with
       | none => none
       | some chars => (decURIChars fuel rest).map (chars ++ ·))
  | fuel + 1, c :: cs => (decURIChars fuel cs).map (c :: ·)

/-- Embedding of `decodeURIComponent`: malformed percent escapes or malformed UTF-8
throw `URIError`; `+` is not special. -/
def decodeURIComponentStr (s : String) : Except JsError String :=
  match decURIChars (s.length + 1) s.data with
  | some cs => .ok (String.mk cs)
  | none => .error .uriError

/-- Byte-level x-www-form-urlencoded decoding: `+` is space, valid percent escapes
decode, an invalid escape passes through literally. -/
def formDecodeBytes : List Char → List Nat
  | [] => []
  | '+' :: cs => 32 :: formDecodeBytes cs
  | '%' :: a :: b :: cs =>
    (match hexVal a, hexVal b with
     | some ha, some hb => (ha * 16 + hb) :: formDecodeBytes cs
     | _, _ => charUtf8 '%' ++ formDecodeBytes (a :: b :: cs))
  | c :: cs => charUtf8 c ++ formDecodeBytes cs

/-- Value decoding as performed by `URLSearchParams`. -/
def formDecode (s : String) : String := String.mk (utf8DecodeLenient (formDecodeBytes s.data))

/-- Key/value pairs of a query string as enumerated by `URLSearchParams`: an optional
leading `?` is stripped, empty `&`-segments are skipped, each segment splits at its
first `=` (a segment without `=` gets the empty value). -/
def parseSearchPairs (search : String) : List (String × String) :=
  let s := match search.data with
    | '?' :: rest => String.mk rest
    | _ => search
  ((splitOnCh '&' s).filter (· != "")).map fun pair =>
    match splitOnCh '=' pair with
    | [] => ("", "")
    | k :: vs => (formDecode k, formDecode (joinWith "=" vs))

/-- `URLSearchParams.get`: the value of the first pair with the given key. -/
def searchGet (search key : String) : Option String :=
  ((parseSearchPairs search).find? (fun p => p.1 == key)).map (·.2)

/-- Uppercase hex digit of a value below 16. -/
def upperHexDigit (n : Nat) : Char :=
  if n < 10 then Char.ofNat (48 + n) else Char.ofNat (55 + n)

/-- Serialization of one character under x-www-form-urlencoded. -/
def formEncodeChar (c : Char) : List Char :=
  if ('0' ≤ c && c ≤ '9') || ('a' ≤ c && c ≤ 'z') || ('A' ≤ c && c ≤ 'Z')
      || c == '*' || c == '-' || c == '.' || c == '_' then [c]
  else if c == ' ' then ['+']
  else (charUtf8 c).bind fun b => ['%', upperHexDigit (b / 16), upperHexDigit (b % 16)]

/-- Serialization of a string under x-www-form-urlencoded. -/
def formEncode (s : String) : String := String.mk (s.data.bind formEncodeChar)

/-- Embedding of `createQueryParams` (part_002): serializes the defined entries with
`URLSearchParams.toString`; the only call site passes the single entry `app_redirect`. -/
def createQueryParams (pairs : List (String × String)) : String :=
  joinWith "&" (pairs.map fun p => formEncode p.1 ++ "=" ++ formEncode p.2)

/-- Bytes of a sequence of hex digit pairs (assumed valid). -/
def hexPairBytes : List Char → List Nat
  | a :: b :: rest => ((hexVal a).getD 0 * 16 + (hexVal b).getD 0) :: hexPairBytes rest
  | _ => []

/-- Embedding of `ethers.utils.arrayify` on a hex string: requires a `0x` prefix and an
even number of hex digits, else throws. -/
def arrayify (h : String) : Except JsError (List Nat) :=
  let cs := h.data
  if cs.take 2 == ['0', 'x'] && (cs.drop 2).all isHexCh && cs.length % 2 == 0 then
    .ok (hexPairBytes (cs.drop 2))
  else .error (.invalidArrayify h)

/-- The `AuthMethod` record: a type tag and an opaque serialized credential. -/
structure AuthMethod where
  authMethodType : AuthMethodType
  accessToken : String
deriving DecidableEq

/-- The parsed login callback parameters (from part_002 `parseLoginParams`). -/
structure LoginUrlParams where
  provider : Option String
  accessToken : Option String
  idToken : Option String
  state : Option String
  error : Option String
deriving DecidableEq

/-- Environment of the derivation dispatcher: the Discord rule fetches the user profile
over the network; the fetch outcome (parsed response JSON, or a failure standing for a
non-ok response or network error) is an input of the embedding. -/
structure UtilsEnv where
  discordFetch : String → Except JsError JsValue

/-- The session-storage state: a key/value association. -/
def SessionStore : Type := List (String × String)

/-- Storage lookup (`sessionStorage.getItem`, `null` as `none`). -/
def storageGet (st : SessionStore) (k : String) : Option String :=
  (List.find? (fun p => p.1 == k) st).map (·.2)

/-- Storage update (`sessionStorage.setItem`). -/
def storageSet (st : SessionStore) (k v : String) : SessionStore :=
  (k, v) :: List.filter (fun p => p.1 != k) st

/-- Embedding of `STATE_PARAM_KEY` (part_002). -/
def STATE_PARAM_KEY : String := "lit-state-param"

/-- Embedding of `isSocialLoginSupported` (part_002). -/
def isSocialLoginSupported (provider : String) : Bool :=
  provider == "google" || provider == "discord"

/-- Embedding of `getLoginRoute` (part_002): only `google` and `discord` have routes;
the default case throws. -/
def getLoginRoute (provider : String) : Except JsError String :=
  match provider with
  | "google" => .ok "/auth/google"
  | "discord" => .ok "/auth/discord"
  | _ => .error (.loginRouteMissing provider)

/-- Embedding of `setStateParam` (part_002): `nanoid(15)` draws a fresh random
15-character identifier; that draw is the `nanoidVal` input of the embedding.  The
value is stored under `STATE_PARAM_KEY` and returned. -/
def setStateParam (nanoidVal : String) (store : SessionStore) : String × SessionStore :=
  (nanoidVal, storageSet store STATE_PARAM_KEY nanoidVal)

/-- Embedding of `getStateParam` (part_002). -/
def getStateParam (store : SessionStore) : Option String := storageGet store STATE_PARAM_KEY

/-- Embedding of `removeStateParam` (part_002). -/
def removeStateParam (store : SessionStore) : SessionStore :=
  List.filter (fun p => p.1 != STATE_PARAM_KEY) store

/-- Embedding of `encode` (part_002): `window.btoa`. -/
def encode (value : String) : Except JsError String := btoa value

/-- Embedding of `decode` (part_002): `window.atob`. -/
def decode (value : String) : Except JsError String := atob value

/-- Embedding of `prepareLoginUrl` (part_002).  Evaluation order follows the source:
the login route is resolved (and can throw) before `setStateParam` runs, so a missing
route leaves the session storage untouched. -/
def prepareLoginUrl (nanoidVal provider redirectUri : String) (store : SessionStore) :
    (Except JsError String) × SessionStore :=
  match getLoginRoute provider with
  | .error e => (.error e, store)
  | .ok route =>
    let loginUrl := "https://login.litgateway.com" ++ route
    let (state, store2) := setStateParam nanoidVal store
    match encode state with
    | .error e => (.error e, store2)
    | .ok st =>
      (.ok (loginUrl ++ "?" ++ createQueryParams [("app_redirect", redirectUri)]
          ++ "&state=" ++ st), store2)

/-- Embedding of `parseLoginParams` (part_002). -/
def parseLoginParams (search : String) : LoginUrlParams :=
  { provider := searchGet search "provider"
    accessToken := searchGet search "access_token"
    idToken := searchGet search "id_token"
    state := searchGet search "state"
    error := searchGet search "error" }

/-- Whether a character matches the regex class backslash-w. -/
def isWordCh (c : Char) : Bool :=
  let n := c.toNat
  (48 ≤ n && n ≤ 57) || (97 ≤ n && n ≤ 122) || (65 ≤ n && n ≤ 90) || n == 95

/-- Embedding of `getRPIdFromOrigin` (part_002): removes a leading scheme and double
slash, then removes a trailing colon-and-digits port. -/
def getRPIdFromOrigin (origin : String) : String :=
  let cs := origin.data
  let stripped : List Char :=
    match cs with
    | '/' :: '/' :: rest => rest
    | _ =>
      let w := cs.takeWhile isWordCh
      if w.isEmpty then cs
      else
        match cs.drop w.length with
        | ':' :: '/' :: '/' :: r => r
        | _ => cs
  let rev := stripped.reverse
  let ds := rev.takeWhile (·.isDigit)
  let noPort :=
    if !ds.isEmpty && ((rev.drop ds.length).headD ' ' == ':') then
      ((rev.drop (ds.length + 1)).reverse)
    else stripped
  String.mk noPort

/-- Embedding of `jose.decodeJwt` (the `jose` package, consumed by the Google rule):
the token must have exactly 3 dot-separated segments; the payload segment is
base64url-decoded, UTF-8-decoded and JSON-parsed, and must be a JSON object; any
failure raises the library's `JWTInvalid` error. -/
def joseDecodeJwt (jwt : String) : Except JsError JsValue :=
  match splitOnCh '.' jwt with
  | [_, payload, _] =>
    (match b64urlDecodeStrict payload with
     | none => .error .jwtInvalid
     | some bytes =>
       match utf8DecodeStrict bytes with
       | none => .error .jwtInvalid
       | some chars =>
         match jsonParse (String.mk chars) with
         | .error _ => .error .jwtInvalid
         | .ok v =>
           match v with
           | .obj _ => .ok v
           | _ => .error .jwtInvalid)
  | _ => .error .jwtInvalid

/-- Modelled from the spec: `parseJWT` is imported by the Apple provider from the
repository's utils module, but its definition is not among the provided sources.
§4.4 has JWT-based identity derivation decode the JWT payload without signature
verification, and §4.5/§8 require a token with other than 3 dot-separated segments to
fail with a decode error rather than be partially parsed. -/
def parseJWT (jwt : String) : Except JsError JsValue :=
  match splitOnCh '.' jwt with
  | [_, payload, _] =>
    (match b64urlDecodeStrict payload with
     | none => .error .jwtInvalid
     | some bytes =>
       match utf8DecodeStrict bytes with
       | none => .error .jwtInvalid
       | some chars => jsonParse (String.mk chars))
  | _ => .error .jwtInvalid

/-- Embedding of `parseOTPJWT` (part_002): requires exactly 3 dot-separated segments,
then decodes the middle segment with Node's lenient base64, masks each byte to 7 bits
(`Buffer.toString` with the ascii encoding) and JSON-parses the result. -/
def parseOTPJWT (jwt : String) : Except JsError JsValue :=
  match splitOnCh '.' jwt with
  | [_, p, _] =>
    let bytes := nodeB64Decode p
    jsonParse (String.mk (bytes.map fun b => Char.ofNat (b % 128)))
  | _ => .error .invalidTokenLength

/-- Embedding of `getDiscordUserInfo` (part_002): a network fetch, provided by the
environment. -/
def getDiscordUserInfo (env : UtilsEnv) (accessToken : String) : Except JsError JsValue :=
  env.discordFetch accessToken

/-- Embedding of `getDiscordAuthMethodId` (part_002). -/
def getDiscordAuthMethodId (env : UtilsEnv) (authMethod : AuthMethod) :
    Except JsError JsValue := do
  let user ← getDiscordUserInfo env authMethod.accessToken
  let uid ← jsGetProp user "id"
  .ok (.str (keccak256Hex (utf8Bytes (jsToStr uid ++ ":1052874239658692668"))))

/-- Embedding of `getGoogleUserInfo` (part_002). -/
def getGoogleUserInfo (idToken : String) : Except JsError JsValue := joseDecodeJwt idToken

/-- Embedding of `getGoogleAuthMethodId` (part_002): interpolates the `sub` and `aud`
claims into a template string (an absent claim prints as `undefined`) and hashes it. -/
def getGoogleAuthMethodId (authMethod : AuthMethod) : Except JsError JsValue := do
  let payload ← getGoogleUserInfo authMethod.accessToken
  let sub ← jsGetProp payload "sub"
  let aud ← jsGetProp payload "aud"
  .ok (.str (keccak256Hex (utf8Bytes (jsToStr sub ++ ":" ++ jsToStr aud))))

/-- Embedding of `getEthWalletAuthMethodId` (part_002): parses the serialized AuthSig
and returns its `address` field as-is (which is `undefined` when the field is absent). -/
def getEthWalletAuthMethodId (authMethod : AuthMethod) : Except JsError JsValue := do
  let authSig ← jsonParse authMethod.accessToken
  jsGetProp authSig "address"

/-- Embedding of `getWebAuthnAuthMethodId` (part_002). -/
def getWebAuthnAuthMethodId (authMethod : AuthMethod) : Except JsError JsValue := do
  let data ← jsonParse authMethod.accessToken
  let rawId ← jsGetProp data "rawId"
  .ok (.str (keccak256Hex (utf8Bytes (jsToStr rawId ++ ":lit"))))

/-- Embedding of `getOTPMethodId` (part_002): lowercases the `orgId` claim (a
`TypeError` when it is not a string), takes the segment of `extraData` before the
first `|`, and hashes `userId:orgId`. -/
def getOTPMethodId (authMethod : AuthMethod) : Except JsError JsValue := do
  let tokenBody ← parseOTPJWT authMethod.accessToken
  let orgIdV ← jsGetProp tokenBody "orgId"
  let orgId ← (match orgIdV with
    | .str s => Except.ok (strToLower s)
    | _ => Except.error .typeError)
  let msgV ← jsGetProp tokenBody "extraData"
  let msg ← (match msgV with
    | .str s => Except.ok s
    | _ => Except.error .typeError)
  let userId := (splitOnCh '|' msg).headD ""
  .ok (.str (keccak256Hex (utf8Bytes (userId ++ ":" ++ orgId))))

/-- Embedding of the standalone derivation dispatcher `getAuthMethodId` (part_002):
a switch over the auth method type with rules for GoogleJwt, Discord, EthWallet,
WebAuthn and OTP; every other value (AppleJwt included) falls to the default case,
which throws. -/
def getAuthMethodId (env : UtilsEnv) (authMethod : AuthMethod) : Except JsError JsValue :=
  match authMethod.authMethodType with
  | .googleJwt => getGoogleAuthMethodId authMethod
  | .discord => getDiscordAuthMethodId env authMethod
  | .ethWallet => getEthWalletAuthMethodId authMethod
  | .webAuthn => getWebAuthnAuthMethodId authMethod
  | .otp => getOTPMethodId authMethod
  | t => .error (.unsupportedAuthMethod t)

/-- The `AuthSig` payload packaged by the EthWallet flow. -/
structure AuthSig where
  sig : String
  derivedVia : String
  signedMessage : String
  address : String
deriving DecidableEq

/-- `JSON.stringify` of an `AuthSig` (field insertion order as in the source). -/
def authSigToJson (s : AuthSig) : String :=
  "\x7b\"sig\":" ++ jsonQuote s.sig ++ ",\"derivedVia\":" ++ jsonQuote s.derivedVia ++
    ",\"signedMessage\":" ++ jsonQuote s.signedMessage ++ ",\"address\":" ++
    jsonQuote s.address ++ "\x7d"

/-- A JS optional that distinguishes `undefined` from `null` (the `cache` option takes
part in a `=== null` comparison, so the distinction matters). -/
inductive JsOpt (α : Type) where
  | undefined
  | null
  | val (a : α)
deriving DecidableEq

/-- Modelled from the spec: the `lit-siwe` `SiweMessage.prepareMessage` serializer is an
external library whose sources are not provided; §4.2 step 3 builds the canonical
sign-in message from the fields domain, uri/origin, checksum-normalized address,
version 1, chainId and expirationTime, serialized per the canonical SIWE textual
format. -/
def litSiweText (domain uri address version : String) (chainId : Nat)
    (expirationTime : String) : String :=
  domain ++ " wants you to sign in with your Ethereum account:\n" ++ address ++
    "\n\nURI: " ++ uri ++ "\nVersion: " ++ version ++ "\nChain ID: " ++
    toString chainId ++ "\nExpiration Time: " ++ expirationTime

/-- Instance state of an `EthWalletProvider`: the constructor-resolved domain and
origin, and the private `#authSig` field (initially `none`). -/
structure EthWalletState where
  domain : String
  origin : String
  authSig : Option AuthSig
deriving DecidableEq

/-- The `EthWalletAuthenticateOptions` argument.  `signMessage` is the caller-supplied
signing function, which may itself fail. -/
structure EthWalletAuthOptions where
  address : Option String
  signMessage : Option (String → Except JsError String)
  chain : Option String
  expiration : Option String
  cache : JsOpt Bool
  expirationUnit : Option String
  expirationLength : Option Nat

/-- External collaborators of the EthWallet flow: the `LIT_CHAINS` registry lookup, the
`checkAndSignAuthMessage` collaborator (whose result, possibly `undefined`, or thrown
failure is an input of the embedding), the default expiration `now + 24h` as an ISO
string, and the storage provider's `convertToISOString`. -/
structure EthWalletEnv where
  litChains : String → Option Nat
  checkAndSign : String → Option String → Except JsError (Option AuthSig)
  nowPlus24hIso : String
  convertToISOString : Nat → String → String

/-- Outcome of one `EthWalletProvider.authenticate` call: the returned (or thrown)
result, the instance state afterwards, and whether the `checkAndSignAuthMessage`
collaborator was consulted. -/
structure EthAuthOut where
  result : Except JsError AuthMethod
  state : EthWalletState
  calledCheckAndSign : Bool

/-- Whether the `cache` branch of `authenticate` is taken: the source first rewrites
`cache === null` to `true`, then tests truthiness. -/
def cacheEffective (options : Option EthWalletAuthOptions) : Bool :=
  match options with
  | none => false
  | some o =>
    match o.cache with
    | .null => true
    | .val b => b
    | .undefined => false

/-- Shared tail of the collaborator paths of `authenticate`: a missing (`undefined`)
signature throws, otherwise the `#authSig` field is set and the `AuthMethod` built. -/
def ethFinish (p : EthWalletState) (called : Bool)
    (r : Except JsError (Option AuthSig)) : EthAuthOut :=
  match r with
  | .error e => { result := .error e, state := p, calledCheckAndSign := called }
  | .ok none => { result := .error .authSigUndefined, state := p, calledCheckAndSign := called }
  | .ok (some sig) =>
    { result := .ok ⟨.ethWallet, authSigToJson sig⟩,
      state := { p with authSig := some sig }, calledCheckAndSign := called }

/-- Chain-name resolution of `authenticate`: the `chain` option, defaulting to
`ethereum` (the empty string is falsy). -/
def resolvedChain (options : Option EthWalletAuthOptions) : String :=
  match options.bind (·.chain) with
  | some c => if c == "" then "ethereum" else c
  | none => "ethereum"

/-- Expiration resolution of `authenticate`: the `expiration` option, defaulting to the
ISO timestamp of now + 24 hours. -/
def resolvedExpiration (env : EthWalletEnv) (options : Option EthWalletAuthOptions) :
    String :=
  match options.bind (·.expiration) with
  | some e => if e == "" then env.nowPlus24hIso else e
  | none => env.nowPlus24hIso

/-- Whether both an address (truthy) and a signing function are supplied. -/
def bothProvided : Option EthWalletAuthOptions → Bool
  | some o =>
    (match o.address with
     | some a => a != ""
     | none => false) && o.signMessage.isSome
  | none => false

namespace EthWalletProvider

/-- Embedding of `EthWalletProvider.authenticate`.  The `cache` branch and the
no-address/no-signMessage branch delegate to `checkAndSignAuthMessage`; the local
branch checksums the address for the SIWE message, signs with the supplied function,
and packages the AuthSig with the input address verbatim. -/
def authenticate (p : EthWalletState) (env : EthWalletEnv)
    (options : Option EthWalletAuthOptions) : EthAuthOut :=
  let chain : String := resolvedChain options
  if cacheEffective options then
    let expirationArg : Option String :=
      match options with
      | some o =>
        (match o.expirationUnit, o.expirationLength with
         | some u, some l =>
           if u != "" && l != 0 then some (env.convertToISOString l u) else none
         | _, _ => none)
      | none => none
    ethFinish p true (env.checkAndSign chain expirationArg)
  else
    match options.bind (·.address), options.bind (·.signMessage) with
    | some a, some f =>
      if a == "" then ethFinish p true (env.checkAndSign chain none)
      else
        match getAddress a with
        | .error e => { result := .error e, state := p, calledCheckAndSign := false }
        | .ok checksummed =>
          let chainId := (env.litChains chain).getD 1
          let expiration := resolvedExpiration env options
          let toSign := litSiweText p.domain p.origin checksummed "1" chainId expiration
          match f toSign with
          | .error e => { result := .error e, state := p, calledCheckAndSign := false }
          | .ok signature =>
            let sig : AuthSig :=
              { sig := signature, derivedVia := "web3.eth.personal.sign",
                signedMessage := toSign, address := a }
            { result := .ok ⟨.ethWallet, authSigToJson sig⟩,
              state := { p with authSig := some sig }, calledCheckAndSign := false }
    | _, _ => ethFinish p true (env.checkAndSign chain none)

/-- Embedding of `EthWalletProvider.getAuthMethodId`: requires a prior successful
`authenticate` and returns the stored address verbatim. -/
def getAuthMethodId (p : EthWalletState) : Except JsError String :=
  match p.authSig with
  | none => .error (.stateError "Auth signature is not defined. Call authenticate first.")
  | some s => .ok s.address

end EthWalletProvider

/-- JS truthiness of an optional string (absent and empty are falsy). -/
def strTruthy : Option String → Bool
  | some s => s != ""
  | none => false

/-- Instance state of an `AppleProvider`: the redirect URI and the private `#idToken`
field (initially `none`). -/
structure AppleState where
  redirectUri : String
  idToken : Option String
deriving DecidableEq

/-- Browser environment of an Apple `authenticate` call: the current URL, its query
string, and the session storage. -/
structure AppleEnv where
  href : String
  search : String
  storage : SessionStore

/-- Outcome of one `AppleProvider.authenticate` call: the result, the instance state
afterwards, whether `history.replaceState` ran (the URL cleanup), and whether the
session storage was read (`getStateParam`). -/
structure AppleAuthOut where
  result : Except JsError AuthMethod
  state : AppleState
  cleared : Bool
  readStateKey : Bool

namespace AppleProvider

/-- Embedding of `AppleProvider.signIn`: computes the login URL via
`prepareLoginUrl('apple', redirectUri)` and navigates there; the success value is the
navigation target, and the session storage is returned alongside. -/
def signIn (nanoidVal : String) (p : AppleState) (store : SessionStore) :
    (Except JsError String) × SessionStore :=
  prepareLoginUrl nanoidVal "apple" p.redirectUri store

/-- Embedding of `AppleProvider.authenticate`, with the source's check order: redirect
prefix, `error` param, `provider` param, state decode and comparison, URL cleanup,
`id_token` presence, then field assignment and `AuthMethod` construction. -/
def authenticate (p : AppleState) (env : AppleEnv) : AppleAuthOut :=
  if !(strStartsWith env.href p.redirectUri) then
    { result := .error (.redirectMismatch env.href p.redirectUri), state := p,
      cleared := false, readStateKey := false }
  else
    let params := parseLoginParams env.search
    if strTruthy params.error then
      { result := .error (.providerError (params.error.getD "")), state := p,
        cleared := false, readStateKey := false }
    else if params.provider != some "apple" then
      { result := .error (.providerMismatch params.provider), state := p,
        cleared := false, readStateKey := false }
    else
      match params.state with
      | none =>
        { result := .error (.invalidState none), state := p,
          cleared := false, readStateKey := false }
      | some st =>
        if st == "" then
          { result := .error (.invalidState (some st)), state := p,
            cleared := false, readStateKey := false }
        else
          match decodeURIComponentStr st with
          | .error e =>
            { result := .error e, state := p, cleared := false, readStateKey := false }
          | .ok u =>
            match decode u with
            | .error e =>
              { result := .error e, state := p, cleared := false, readStateKey := false }
            | .ok s =>
              if some s != getStateParam env.storage then
                { result := .error (.invalidState (some st)), state := p,
                  cleared := false, readStateKey := true }
              else
                match params.idToken with
                | none =>
                  { result := .error .missingIdToken, state := p,
                    cleared := true, readStateKey := true }
                | some tok =>
                  if tok == "" then
                    { result := .error .missingIdToken, state := p,
                      cleared := true, readStateKey := true }
                  else
                    { result := .ok ⟨.appleJwt, tok⟩,
                      state := { p with idToken := some tok },
                      cleared := true, readStateKey := true }

/-- Embedding of `AppleProvider.getAuthMethodId`: requires a prior successful
`authenticate`, decodes the stored JWT and hashes `sub:aud`. -/
def getAuthMethodId (p : AppleState) : Except JsError String :=
  match p.idToken with
  | none => .error (.stateError "Id token is not defined. Call authenticate first.")
  | some tok => do
    let tokenPayload ← parseJWT tok
    let userId ← jsGetProp tokenPayload "sub"
    let audience ← jsGetProp tokenPayload "aud"
    .ok (keccak256Hex (utf8Bytes (jsToStr userId ++ ":" ++ jsToStr audience)))

end AppleProvider

/-- Instance state of a `WebAuthnProvider`: the origin and RPC URL, and the private
`#attestationResponse` field (initially `none`). -/
structure WebAuthnState where
  origin : String
  rpcUrl : String
  attestationResponse : Option JsValue

/-- The authentication options handed to the assertion ceremony. -/
structure WebAuthnAuthnOptions where
  challenge : String
  timeout : Nat
  userVerification : String
  rpId : String

/-- External collaborators of the WebAuthn authentication flow: the latest block hash
from the JSON-RPC provider, and the `startAuthentication` browser ceremony whose
result is the parsed assertion response. -/
structure WebAuthnEnv where
  latestBlockHash : Except JsError String
  startAuthentication : WebAuthnAuthnOptions → Except JsError JsValue

/-- Outcome of one `WebAuthnProvider.authenticate` call. -/
structure WebAuthnOut where
  result : Except JsError AuthMethod
  state : WebAuthnState

namespace WebAuthnProvider

/-- Embedding of `WebAuthnProvider.authenticate`: fetches the latest block hash as the
anti-replay challenge, base64url-encodes it, derives the relying-party id from the
origin, runs the ceremony, normalizes the response through a stringify/parse round
trip, re-encodes a present `userHandle` as base64url, stores the response on the
instance and emits the `AuthMethod`.  (`base64url.encode` is only ever applied to a
string `userHandle`; a truthy non-string there is modelled as the library throwing.) -/
def authenticate (p : WebAuthnState) (env : WebAuthnEnv) : WebAuthnOut :=
  match env.latestBlockHash with
  | .error e => { result := .error e, state := p }
  | .ok blockHash =>
    match arrayify blockHash with
    | .error e => { result := .error e, state := p }
    | .ok blockHashBytes =>
      let authenticationOptions : WebAuthnAuthnOptions :=
        { challenge := b64urlEncode blockHashBytes, timeout := 60000,
          userVerification := "required", rpId := getRPIdFromOrigin p.origin }
      match env.startAuthentication authenticationOptions with
      | .error e => { result := .error e, state := p }
      | .ok resp =>
        let actual := stripUndefV resp
        match jsGetProp resp "response" with
        | .error e => { result := .error e, state := p }
        | .ok respField =>
          let userHandle : JsValue :=
            match respField with
            | .undefined => .undefined
            | .null => .undefined
            | .obj rf => (jsObjGet rf "userHandle").getD .undefined
            | _ => .undefined
          if jsTruthy userHandle then
            match userHandle with
            | .str s =>
              (match actual with
               | .obj fs =>
                 (match jsObjGet fs "response" with
                  | some (.obj rf) =>
                    let actual2 : JsValue :=
                      .obj (jsObjSet fs "response"
                        (.obj (jsObjSet rf "userHandle" (.str (b64urlEncodeStr s)))))
                    { result := .ok ⟨.webAuthn, jsonStringifyV actual2⟩,
                      state := { p with attestationResponse := some actual2 } }
                  | _ => { result := .error .typeError, state := p })
               | _ => { result := .error .typeError, state := p })
            | _ => { result := .error .typeError, state := p }
          else
            { result := .ok ⟨.webAuthn, jsonStringifyV actual⟩,
              state := { p with attestationResponse := some actual } }

/-- Embedding of `WebAuthnProvider.getAuthMethodId`: requires a prior successful
`authenticate` and hashes `rawId:lit` from the stored response. -/
def getAuthMethodId (p : WebAuthnState) : Except JsError String :=
  match p.attestationResponse with
  | none =>
    .error (.stateError "Authentication data is not defined. Call authenticate first.")
  | some d => do
    let rawId ← jsGetProp d "rawId"
    .ok (keccak256Hex (utf8Bytes (jsToStr rawId ++ ":lit")))

end WebAuthnProvider

/-- The common WebAuthn identifier function of the rawId value: both the provider
method and the standalone dispatcher rule compute this function. -/
def webAuthnRawIdHash (rawId : JsValue) : String :=
  keccak256Hex (utf8Bytes (jsToStr rawId ++ ":lit"))

/-- One EthWallet `authenticate` invocation: the collaborator environment and the
options of that call. -/
def ethStep (s : EthWalletState) (c : EthWalletEnv × Option EthWalletAuthOptions) :
    EthAuthOut :=
  EthWalletProvider.authenticate s c.1 c.2

/-- The instance state after a sequence of EthWallet `authenticate` calls. -/
def ethRun : EthWalletState → List (EthWalletEnv × Option EthWalletAuthOptions) →
    EthWalletState
  | s, [] => s
  | s, c :: cs => ethRun (ethStep s c).state cs

/-- Whether every call of an EthWallet `authenticate` sequence fails. -/
def ethAllFailed : EthWalletState → List (EthWalletEnv × Option EthWalletAuthOptions) →
    Bool
  | _, [] => true
  | s, c :: cs => !exOk (ethStep s c).result && ethAllFailed (ethStep s c).state cs

/-- The instance state after a sequence of Apple `authenticate` calls. -/
def appleRun : AppleState → List AppleEnv → AppleState
  | s, [] => s
  | s, e :: es => appleRun (AppleProvider.authenticate s e).state es

/-- Whether every call of an Apple `authenticate` sequence fails. -/
def appleAllFailed : AppleState → List AppleEnv → Bool
  | _, [] => true
  | s, e :: es =>
    !exOk (AppleProvider.authenticate s e).result &&
      appleAllFailed (AppleProvider.authenticate s e).state es

/-- The instance state after a sequence of WebAuthn `authenticate` calls. -/
def waRun : WebAuthnState → List WebAuthnEnv → WebAuthnState
  | s, [] => s
  | s, e :: es => waRun (WebAuthnProvider.authenticate s e).state es

/-- Whether every call of a WebAuthn `authenticate` sequence fails. -/
def waAllFailed : WebAuthnState → List WebAuthnEnv → Bool
  | _, [] => true
  | s, e :: es =>
    !exOk (WebAuthnProvider.authenticate s e).result &&
      waAllFailed (WebAuthnProvider.authenticate s e).state es

/-- A dispatcher environment whose Discord fetch succeeds with a fixed user object. -/
def env1 : UtilsEnv := ⟨fun _ => .ok (.obj (.cons "id" (.str "4242") .nil))⟩

/-- A well-formed Google ID token: payload with `sub` and `aud` claims. -/
def googleJwt0 : String :=
  "h." ++ b64urlEncode (utf8Bytes "\x7b\"sub\":\"subject-1\",\"aud\":\"audience-1\"\x7d") ++ ".s"

/-- A structurally valid JWT whose payload is the empty object (no claims). -/
def emptyPayloadJwt : String := "h." ++ b64urlEncode (utf8Bytes "\x7b\x7d") ++ ".s"

/-- A well-formed OTP JWT with `orgId` claim `OrgABC` and `extraData` claim
`user-42|extra-context` (the example of the spec). -/
def otpJwt0 : String :=
  "h." ++ stdB64 (utf8Bytes "\x7b\"orgId\":\"OrgABC\",\"extraData\":\"user-42|extra-context\"\x7d")
    ++ ".s"

/-- A structurally valid OTP JWT whose payload lacks the `orgId` claim. -/
def otpJwtNoOrg : String :=
  "h." ++ stdB64 (utf8Bytes "\x7b\"extraData\":\"a|b\"\x7d") ++ ".s"

/-- The first EIP-55 example address in all-lowercase form. -/
def addrLow : String := "0x5aaeb6053f3e94c9b9a09f33669435e7ef1beaed"

/-- The EIP-55 checksummed form of `addrLow`. -/
def addrCk : String := "0x5aAeb6053F3E94C9b9A09f33669435E7Ef1BeAed"

/-- A fresh EthWallet provider instance (spec §8 end-to-end example). -/
def ethP0 : EthWalletState := ⟨"app.example", "https://app.example", none⟩

/-- A concrete EthWallet environment: empty chain registry, a collaborator that yields
no signature, and a fixed default expiration. -/
def ethEnv0 : EthWalletEnv :=
  ⟨fun _ => none, fun _ _ => .ok none, "2025-01-01T00:00:00.000Z", fun _ _ => ""⟩

/-- Options with address and signing stub supplied, and no caching. -/
def ethOpts0 : EthWalletAuthOptions :=
  ⟨some addrLow, some (fun _ => .ok "0xsig"), none, none, .undefined, none, none⟩

/-- Options with address and signing stub supplied, and caching requested. -/
def ethOptsCache : EthWalletAuthOptions :=
  ⟨some addrLow, some (fun _ => .ok "0xsig"), none, none, .val true, none, none⟩

/-- The AuthSig packaged by the local signing path of `authenticate`: signature `sg`
over the SIWE text embedding the checksummed address `ck`, with the input address `a`
verbatim in the `address` field. -/
def localAuthSig (p : EthWalletState) (env : EthWalletEnv)
    (o : Option EthWalletAuthOptions) (a ck sg : String) : AuthSig :=
  { sig := sg, derivedVia := "web3.eth.personal.sign",
    signedMessage := litSiweText p.domain p.origin ck "1"
      ((env.litChains (resolvedChain o)).getD 1) (resolvedExpiration env o),
    address := a }

/-- The AuthSig packaged by `authenticate ethP0 ethEnv0 (some ethOpts0)`. -/
def c2sig0 : AuthSig :=
  { sig := "0xsig", derivedVia := "web3.eth.personal.sign",
    signedMessage := litSiweText "app.example" "https://app.example" addrCk "1" 1
      "2025-01-01T00:00:00.000Z",
    address := addrLow }

/-- A fresh Apple provider instance with a configured redirect URI. -/
def appleP0 : AppleState := ⟨"https://app.example/cb", none⟩

/-- The callback environment of the spec's CSRF example: the stored token is `abc123`
while the callback state decodes to `xyz789`. -/
def appleEnvBadState : AppleEnv :=
  ⟨"https://app.example/cb?provider=apple&id_token=tok&state=eHl6Nzg5",
   "?provider=apple&id_token=tok&state=eHl6Nzg5",
   [("lit-state-param", "abc123")]⟩

/-- A fully valid callback environment: the state decodes to the stored token. -/
def appleEnvGood : AppleEnv :=
  ⟨"https://app.example/cb?provider=apple&id_token=tok.e30.x&state=YWJjMTIz",
   "?provider=apple&id_token=tok.e30.x&state=YWJjMTIz",
   [("lit-state-param", "abc123")]⟩

/-- A callback environment on a foreign host (the spec's redirect-mismatch example). -/
def appleEnvEvil : AppleEnv :=
  ⟨"https://evil.example/cb?provider=apple&id_token=tok&state=YWJjMTIz",
   "?provider=apple&id_token=tok&state=YWJjMTIz",
   [("lit-state-param", "abc123")]⟩

/-- A WebAuthn environment whose block-hash fetch fails. -/
def waEnvFail : WebAuthnEnv := ⟨.error (.remoteError "network"), fun _ => .error .typeError⟩

/-- Known-answer test: the Keccak-256 digest of the empty input. -/
theorem keccak256_empty_vector :
    keccak256Hex (utf8Bytes "") =
      "0xc5d2460186f7233c927e7db2dcc703c0e500b653ca82273b7bfad8045d85a470" := by decide

/-- Known-answer test: the Keccak-256 digest of the ASCII string abc. -/
theorem keccak256_abc_vector :
    keccak256Hex (utf8Bytes "abc") =
      "0x4e03657aea45a94fc7d47ba826c8d667c0d1e6e33a64a036ec44f58fa12d6c45" := by decide

/-- Known-answer test: EIP-55 checksumming of the first example address of the EIP. -/
theorem getAddress_eip55_vector :
    getAddress "0x5aaeb6053f3e94c9b9a09f33669435e7ef1beaed" =
      .ok "0x5aAeb6053F3E94C9b9A09f33669435E7Ef1BeAed" := by decide

/-- Known-answer test: a second EIP-55 example, given in already-checksummed form. -/
theorem getAddress_eip55_vector2 :
    getAddress "0xfB6916095ca1df60bB79Ce92cE3Ea74c37c5d359" =
      .ok "0xfB6916095ca1df60bB79Ce92cE3Ea74c37c5d359" := by decide

/-- The collaborator tail reports the `calledCheckAndSign` flag it was given. -/
theorem ethFinish_called (p : EthWalletState) (b : Bool)
    (r : Except JsError (Option AuthSig)) :
    (ethFinish p b r).calledCheckAndSign = b := by
  cases r with
  | error e => rfl
  | ok osig => cases osig with
    | none => rfl
    | some sig => rfl

/-- A failing collaborator tail leaves the instance state unchanged. -/
theorem ethFinish_fail (p : EthWalletState) (b : Bool)
    (r : Except JsError (Option AuthSig)) :
    exOk (ethFinish p b r).result = false → (ethFinish p b r).state = p := by
  cases r with
  | error e => intro _; rfl
  | ok osig => cases osig with
    | none => intro _; rfl
    | some sig => intro h; simp [ethFinish, exOk] at h

/-- A successful collaborator tail stores the produced AuthSig. -/
theorem ethFinish_ok (p : EthWalletState) (b : Bool)
    (r : Except JsError (Option AuthSig)) :
    exOk (ethFinish p b r).result = true →
      ∃ sig, (ethFinish p b r).state.authSig = some sig := by
  cases r with
  | error e => intro h; simp [ethFinish, exOk] at h
  | ok osig => cases osig with
    | none => intro h; simp [ethFinish, exOk] at h
    | some sig => intro _; exact ⟨sig, rfl⟩

/-- A failing EthWallet `authenticate` call leaves the instance state unchanged. -/
theorem ethStep_fail_preserves (s : EthWalletState)
    (c : EthWalletEnv × Option EthWalletAuthOptions) :
    exOk (ethStep s c).result = false → (ethStep s c).state = s := by
  simp only [ethStep, EthWalletProvider.authenticate]
  repeat' split
  all_goals
    first
      | exact fun _ => rfl
      | exact ethFinish_fail _ _ _
      | (intro hh; simp [exOk] at hh)

/-- A successful EthWallet `authenticate` call sets the `#authSig` field. -/
theorem ethStep_ok_sets (s : EthWalletState)
    (c : EthWalletEnv × Option EthWalletAuthOptions) :
    exOk (ethStep s c).result = true →
      ∃ sig, (ethStep s c).state.authSig = some sig := by
  simp only [ethStep, EthWalletProvider.authenticate]
  repeat' split
  all_goals
    first
      | exact ethFinish_ok _ _ _
      | (intro _; exact ⟨_, rfl⟩)
      | (intro hh; simp [exOk] at hh)

/-- An all-failing EthWallet call sequence leaves the instance state unchanged. -/
theorem ethRun_all_failed :
    ∀ (cs : List (EthWalletEnv × Option EthWalletAuthOptions)) (s : EthWalletState),
      ethAllFailed s cs = true → ethRun s cs = s := by
  intro cs
  induction cs with
  | nil => intro s _; rfl
  | cons c cs ih =>
    intro s h
    simp only [ethAllFailed, Bool.and_eq_true, Bool.not_eq_true'] at h
    have hpres := ethStep_fail_preserves s c h.1
    have h2 := h.2
    rw [hpres] at h2
    simpa only [ethRun, hpres] using ih s h2

/-- A failing Apple `authenticate` call leaves the instance state unchanged. -/
theorem appleAuth_fail_preserves (s : AppleState) (e : AppleEnv) :
    exOk (AppleProvider.authenticate s e).result = false →
      (AppleProvider.authenticate s e).state = s := by
  simp only [AppleProvider.authenticate]
  repeat' split
  all_goals
    first
      | exact fun _ => rfl
      | (intro hh; simp [exOk] at hh)

/-- A successful Apple `authenticate` call sets the `#idToken` field. -/
theorem appleAuth_ok_sets (s : AppleState) (e : AppleEnv) :
    exOk (AppleProvider.authenticate s e).result = true →
      ∃ t, (AppleProvider.authenticate s e).state.idToken = some t := by
  simp only [AppleProvider.authenticate]
  repeat' split
  all_goals
    first
      | (intro _; exact ⟨_, rfl⟩)
      | (intro hh; simp [exOk] at hh)

/-- An all-failing Apple call sequence leaves the instance state unchanged. -/
theorem appleRun_all_failed :
    ∀ (es : List AppleEnv) (s : AppleState),
      appleAllFailed s es = true → appleRun s es = s := by
  intro es
  induction es with
  | nil => intro s _; rfl
  | cons e es ih =>
    intro s h
    simp only [appleAllFailed, Bool.and_eq_true, Bool.not_eq_true'] at h
    have hpres := appleAuth_fail_preserves s e h.1
    have h2 := h.2
    rw [hpres] at h2
    simpa only [appleRun, hpres] using ih s h2

/-- A failing WebAuthn `authenticate` call leaves the instance state unchanged. -/
theorem waAuth_fail_preserves (s : WebAuthnState) (e : WebAuthnEnv) :
    exOk (WebAuthnProvider.authenticate s e).result = false →
      (WebAuthnProvider.authenticate s e).state = s := by
  simp only [WebAuthnProvider.authenticate]
  repeat' split
  all_goals
    first
      | exact fun _ => rfl
      | (intro hh; simp [exOk] at hh)

/-- A successful WebAuthn `authenticate` call sets the `#attestationResponse` field. -/
theorem waAuth_ok_sets (s : WebAuthnState) (e : WebAuthnEnv) :
    exOk (WebAuthnProvider.authenticate s e).result = true →
      ∃ d, (WebAuthnProvider.authenticate s e).state.attestationResponse = some d := by
  simp only [WebAuthnProvider.authenticate]
  repeat' split
  all_goals
    first
      | (intro _; exact ⟨_, rfl⟩)
      | (intro hh; simp [exOk] at hh)

/-- An all-failing WebAuthn call sequence leaves the instance state unchanged. -/
theorem waRun_all_failed :
    ∀ (es : List WebAuthnEnv) (s : WebAuthnState),
      waAllFailed s es = true → waRun s es = s := by
  intro es
  induction es with
  | nil => intro s _; rfl
  | cons e es ih =>
    intro s h
    simp only [waAllFailed, Bool.and_eq_true, Bool.not_eq_true'] at h
    have hpres := waAuth_fail_preserves s e h.1
    have h2 := h.2
    rw [hpres] at h2
    simpa only [waRun, hpres] using ih s h2

/-- C1: the spec requires the standalone derivation dispatcher to be total over the
supported types EthWallet, WebAuthn, AppleJwt, GoogleJwt, Discord and OTP, never
failing with `UnsupportedAuthMethodError` on them, and to fail with that error on an
unrecognized type.  The code violates this for AppleJwt: the switch has no AppleJwt
case, so a well-formed AppleJwt auth method falls to the default throw; the other five
types each have a rule (shown succeeding on well-formed inputs), and unrecognized
values fall to the default throw as specified. -/
theorem c1_dispatcher_applejwt_not_total :
    (∀ (env : UtilsEnv) (am : AuthMethod), am.authMethodType = .appleJwt →
        getAuthMethodId env am = .error (.unsupportedAuthMethod .appleJwt))
    ∧ (∀ (env : UtilsEnv) (am : AuthMethod) (n : Nat), am.authMethodType = .other n →
        getAuthMethodId env am = .error (.unsupportedAuthMethod (.other n)))
    ∧ exOk (getAuthMethodId env1 ⟨.googleJwt, googleJwt0⟩) = true
    ∧ exOk (getAuthMethodId env1 ⟨.discord, "token"⟩) = true
    ∧ exOk (getAuthMethodId env1 ⟨.ethWallet, "\x7b\"address\":\"0xabc\"\x7d"⟩) = true
    ∧ exOk (getAuthMethodId env1 ⟨.webAuthn, "\x7b\"rawId\":\"credA\"\x7d"⟩) = true
    ∧ exOk (getAuthMethodId env1 ⟨.otp, otpJwt0⟩) = true := by
  refine ⟨?_, ?_, ?_, ?_, ?_, ?_, ?_⟩
  · intro env am h
    cases am with
    | mk t tok =>
      subst h
      rfl
  · intro env am n h
    cases am with
    | mk t tok =>
      subst h
      rfl
  · decide
  · decide
  · decide
  · decide
  · decide

/-- C1 witness: the dispatcher applied to a concrete well-formed AppleJwt auth method
(the payload is a valid JWT) fails with the unsupported-type error. -/
theorem c1_dispatcher_applejwt_not_total_witness :
    getAuthMethodId env1 ⟨.appleJwt, googleJwt0⟩ =
      .error (.unsupportedAuthMethod .appleJwt) :=
  c1_dispatcher_applejwt_not_total.1 env1 ⟨.appleJwt, googleJwt0⟩ rfl

/-- C3: the spec has `AppleProvider.signIn` generate and persist a random state token
and navigate to the login gateway.  The code instead always throws: `prepareLoginUrl`
resolves the login route before creating the state, and `getLoginRoute` has no case
for `apple`, so every call fails with the missing-route error, the session storage
unchanged and no state token ever created. -/
theorem c3_apple_signin_always_throws :
    ∀ (nanoidVal : String) (p : AppleState) (store : SessionStore),
      AppleProvider.signIn nanoidVal p store =
        (.error (.loginRouteMissing "apple"), store) := by
  intro n p st
  rfl

/-- C5: when the current URL is not prefixed by the configured redirect URI, Apple
`authenticate` returns the redirect-mismatch error whatever the query string and
session storage hold, without reading the state key, without touching the URL history,
and without changing the instance state — the check precedes every other step. -/
theorem c5_redirect_mismatch_precedes_all :
    ∀ (p : AppleState) (env : AppleEnv),
      strStartsWith env.href p.redirectUri = false →
      AppleProvider.authenticate p env =
        { result := .error (.redirectMismatch env.href p.redirectUri), state := p,
          cleared := false, readStateKey := false } := by
  intro p env h
  simp [AppleProvider.authenticate, h]

/-- C5 witness: the spec's example — redirect URI on `app.example`, callback URL on
`evil.example` with otherwise valid parameters and a matching stored token. -/
theorem c5_redirect_mismatch_precedes_all_witness :
    AppleProvider.authenticate appleP0 appleEnvEvil =
      { result := .error (.redirectMismatch appleEnvEvil.href appleP0.redirectUri),
        state := appleP0, cleared := false, readStateKey := false } :=
  c5_redirect_mismatch_precedes_all appleP0 appleEnvEvil (by decide)

/-- C7: the spec requires every derivation rule to fail with a clear typed error on
malformed access tokens (invalid JSON, wrong JWT segment count, missing claims) and
never to return garbage silently.  The code violates this for missing claims: the
GoogleJwt rule silently hashes `undefined:undefined` when `sub` and `aud` are absent,
the WebAuthn rule silently hashes `undefined:lit` when `rawId` is absent, the
EthWallet rule returns `undefined` itself when `address` is absent, and the OTP rule
crashes with an untyped `TypeError` when `orgId` is absent.  (Wrong segment count and
invalid JSON do fail, with the OTP length error and a JSON `SyntaxError`.) -/
theorem c7_missing_claims_garbage :
    getAuthMethodId env1 ⟨.googleJwt, emptyPayloadJwt⟩ =
        .ok (.str (keccak256Hex (utf8Bytes "undefined:undefined")))
    ∧ getAuthMethodId env1 ⟨.webAuthn, "\x7b\x7d"⟩ =
        .ok (.str (keccak256Hex (utf8Bytes "undefined:lit")))
    ∧ getAuthMethodId env1 ⟨.ethWallet, "\x7b\x7d"⟩ = .ok .undefined
    ∧ getAuthMethodId env1 ⟨.otp, otpJwtNoOrg⟩ = .error .typeError
    ∧ getAuthMethodId env1 ⟨.otp, "single-segment"⟩ = .error .invalidTokenLength
    ∧ getAuthMethodId env1 ⟨.ethWallet, "not json"⟩ = .error .syntaxError :=
  ⟨rfl, rfl, rfl, rfl, rfl, rfl⟩

/-- C10: for each provider variant (EthWallet, Apple, WebAuthn), `getAuthMethodId`
fails with the state error whenever no successful `authenticate` has completed on that
instance — in particular after arbitrarily many failed `authenticate` calls — because a
failing call leaves the private credential field unchanged and only a successful call
sets it. -/
theorem c10_get_id_requires_authentication :
    (∀ (du og : String) (cs : List (EthWalletEnv × Option EthWalletAuthOptions)),
        ethAllFailed ⟨du, og, none⟩ cs = true →
        EthWalletProvider.getAuthMethodId (ethRun ⟨du, og, none⟩ cs) =
          .error (.stateError "Auth signature is not defined. Call authenticate first."))
    ∧ (∀ s c, exOk (ethStep s c).result = false → (ethStep s c).state = s)
    ∧ (∀ s c, exOk (ethStep s c).result = true →
        ∃ sig, (ethStep s c).state.authSig = some sig)
    ∧ (∀ (ru : String) (es : List AppleEnv),
        appleAllFailed ⟨ru, none⟩ es = true →
        AppleProvider.getAuthMethodId (appleRun ⟨ru, none⟩ es) =
          .error (.stateError "Id token is not defined. Call authenticate first."))
    ∧ (∀ s e, exOk (AppleProvider.authenticate s e).result = false →
        (AppleProvider.authenticate s e).state = s)
    ∧ (∀ s e, exOk (AppleProvider.authenticate s e).result = true →
        ∃ t, (AppleProvider.authenticate s e).state.idToken = some t)
    ∧ (∀ (og rpc : String) (es : List WebAuthnEnv),
        waAllFailed ⟨og, rpc, none⟩ es = true →
        WebAuthnProvider.getAuthMethodId (waRun ⟨og, rpc, none⟩ es) =
          .error
            (.stateError "Authentication data is not defined. Call authenticate first."))
    ∧ (∀ s e, exOk (WebAuthnProvider.authenticate s e).result = false →
        (WebAuthnProvider.authenticate s e).state = s)
    ∧ (∀ s e, exOk (WebAuthnProvider.authenticate s e).result = true →
        ∃ d, (WebAuthnProvider.authenticate s e).state.attestationResponse = some d) := by
  refine ⟨?_, ethStep_fail_preserves, ethStep_ok_sets, ?_, appleAuth_fail_preserves,
    appleAuth_ok_sets, ?_, waAuth_fail_preserves, waAuth_ok_sets⟩
  · intro du og cs h
    rw [ethRun_all_failed cs _ h]
    rfl
  · intro ru es h
    rw [appleRun_all_failed es _ h]
    rfl
  · intro og rpc es h
    rw [waRun_all_failed es _ h]
    rfl

/-- C10 witness: one concrete failed `authenticate` call on a fresh instance of each
provider, after which `getAuthMethodId` fails with the state error. -/
theorem c10_get_id_requires_authentication_witness :
    EthWalletProvider.getAuthMethodId (ethRun ⟨"d", "o", none⟩ [(ethEnv0, none)]) =
        .error (.stateError "Auth signature is not defined. Call authenticate first.")
    ∧ AppleProvider.getAuthMethodId
          (appleRun ⟨"https://app.example/cb", none⟩ [appleEnvEvil]) =
        .error (.stateError "Id token is not defined. Call authenticate first.")
    ∧ WebAuthnProvider.getAuthMethodId
          (waRun ⟨"https://app.example", "rpc", none⟩ [waEnvFail]) =
        .error
          (.stateError "Authentication data is not defined. Call authenticate first.") :=
  ⟨c10_get_id_requires_authentication.1 "d" "o" [(ethEnv0, none)] (by decide),
   c10_get_id_requires_authentication.2.2.2.1 "https://app.example/cb" [appleEnvEvil]
     (by decide),
   c10_get_id_requires_authentication.2.2.2.2.2.2.1 "https://app.example" "rpc"
     [waEnvFail] (by decide)⟩

/-- C4: under an otherwise valid callback (URL prefixed by the redirect URI, no error
parameter, provider `apple`), `authenticate` fails with the CSRF invalid-state error
when the state parameter is absent (or empty, which JS treats as absent), and when the
decoded state differs from the stored token; and an `AuthMethod` is emitted only when
the decoded state equals the stored token. -/
theorem c4_csrf_state_validation :
    (∀ (p : AppleState) (env : AppleEnv),
        strStartsWith env.href p.redirectUri = true →
        strTruthy (parseLoginParams env.search).error = false →
        (parseLoginParams env.search).provider = some "apple" →
        ((parseLoginParams env.search).state = none ∨
          (parseLoginParams env.search).state = some "") →
        (AppleProvider.authenticate p env).result =
          .error (.invalidState (parseLoginParams env.search).state))
    ∧ (∀ (p : AppleState) (env : AppleEnv) (st u s : String),
        strStartsWith env.href p.redirectUri = true →
        strTruthy (parseLoginParams env.search).error = false →
        (parseLoginParams env.search).provider = some "apple" →
        (parseLoginParams env.search).state = some st →
        st ≠ "" →
        decodeURIComponentStr st = .ok u →
        decode u = .ok s →
        getStateParam env.storage ≠ some s →
        (AppleProvider.authenticate p env).result = .error (.invalidState (some st)))
    ∧ (∀ (p : AppleState) (env : AppleEnv) (am : AuthMethod),
        (AppleProvider.authenticate p env).result = .ok am →
        ∃ st u s, (parseLoginParams env.search).state = some st ∧
          decodeURIComponentStr st = .ok u ∧ decode u = .ok s ∧
          getStateParam env.storage = some s) := by
  refine ⟨?_, ?_, ?_⟩
  · intro p env h1 h2 h3 h4
    rcases h4 with h4 | h4 <;> simp [AppleProvider.authenticate, h1, h2, h3, h4]
  · intro p env st u s h1 h2 h3 h4 hne h5 h6 h7
    have hne' : (st == "") = false := beq_eq_false_iff_ne.mpr hne
    have hbne : (some s != getStateParam env.storage) = true :=
      bne_iff_ne.mpr fun hx => h7 hx.symm
    simp [AppleProvider.authenticate, h1, h2, h3, h4, hne', h5, h6, hbne]
  · intro p env am h
    simp only [AppleProvider.authenticate] at h
    split at h
    · simp at h
    · split at h
      · simp at h
      · split at h
        · simp at h
        · split at h
          · simp at h
          · rename_i st hstate
            split at h
            · simp at h
            · split at h
              · simp at h
              · rename_i u hdec
                split at h
                · simp at h
                · rename_i s hdecode
                  split at h
                  · simp at h
                  · rename_i hcond
                    have hfalse : (some s != getStateParam env.storage) = false := by
                      revert hcond
                      cases some s != getStateParam env.storage <;> simp
                    have hstore : getStateParam env.storage = some s :=
                      (bne_eq_false_iff_eq.mp hfalse).symm
                    exact ⟨st, u, s, hstate, hdec, hdecode, hstore⟩

/-- C4 witness: the spec's example — stored token `abc123`, callback state decoding to
`xyz789`, all other parameters valid — is rejected with the invalid-state error. -/
theorem c4_csrf_state_validation_witness :
    (AppleProvider.authenticate appleP0 appleEnvBadState).result =
      .error (.invalidState (some "eHl6Nzg5")) :=
  c4_csrf_state_validation.2.1 appleP0 appleEnvBadState "eHl6Nzg5" "eHl6Nzg5" "xyz789"
    (by decide) (by decide) (by rfl) (by rfl) (by decide) (by rfl) (by rfl) (by decide)

/-- C8: for every well-formed OTP JWT (parseable, with string `orgId` and `extraData`
claims), the derived identifier is the Keccak-256 hash of `userId:orgId-lowercased`,
where `userId` is the first `|`-separated segment of `extraData` taken verbatim (not
lowercased) and `orgId` is lowercased; on the spec's example (`extraData`
`user-42|extra-context`, `orgId` `OrgABC`) exactly the string `user-42:orgabc` is
hashed. -/
theorem c8_otp_identifier :
    (∀ (env : UtilsEnv) (am : AuthMethod) (body : JsValue) (org extra : String),
        am.authMethodType = .otp →
        parseOTPJWT am.accessToken = .ok body →
        jsGetProp body "orgId" = .ok (.str org) →
        jsGetProp body "extraData" = .ok (.str extra) →
        getAuthMethodId env am =
          .ok (.str (keccak256Hex (utf8Bytes
            ((splitOnCh '|' extra).headD "" ++ ":" ++ strToLower org)))))
    ∧ getAuthMethodId env1 ⟨.otp, otpJwt0⟩ =
        .ok (.str (keccak256Hex (utf8Bytes "user-42:orgabc"))) := by
  constructor
  · intro env am body org extra htype hparse horg hextra
    cases am with
    | mk t tok =>
      subst htype
      simp only [getAuthMethodId, getOTPMethodId, Except.bind] at *
      simp [hparse, horg, hextra, Except.bind, bind]
  · rfl

/-- C8 witness: the universal part applied to the concrete example token. -/
theorem c8_otp_identifier_witness :
    getAuthMethodId env1 ⟨.otp, otpJwt0⟩ =
      .ok (.str (keccak256Hex (utf8Bytes
        ((splitOnCh '|' "user-42|extra-context").headD "" ++ ":" ++ strToLower "OrgABC")))) :=
  c8_otp_identifier.1 env1 ⟨.otp, otpJwt0⟩
    (.obj (.cons "orgId" (.str "OrgABC")
      (.cons "extraData" (.str "user-42|extra-context") .nil)))
    "OrgABC" "user-42|extra-context" rfl (by rfl) (by rfl) (by rfl)

/-- C9: WebAuthn identifier derivation is a pure function of the credential `rawId`,
namely the Keccak-256 hash of the UTF-8 bytes of `rawId:lit`: two stored assertions
with equal `rawId` give equal provider-derived identifiers; the standalone dispatcher
rule and the provider-instance derivation compute the same function of `rawId`; and on
concrete distinct raw ids the identifiers differ. -/
theorem c9_webauthn_id_pure_and_agrees :
    (∀ (s1 s2 : WebAuthnState) (d1 d2 : JsValue),
        s1.attestationResponse = some d1 → s2.attestationResponse = some d2 →
        jsGetProp d1 "rawId" = jsGetProp d2 "rawId" →
        WebAuthnProvider.getAuthMethodId s1 = WebAuthnProvider.getAuthMethodId s2)
    ∧ (∀ (env : UtilsEnv) (am : AuthMethod) (d rv : JsValue),
        am.authMethodType = .webAuthn →
        jsonParse am.accessToken = .ok d →
        jsGetProp d "rawId" = .ok rv →
        getAuthMethodId env am = .ok (.str (webAuthnRawIdHash rv))
          ∧ ∀ (s : WebAuthnState), s.attestationResponse = some d →
              WebAuthnProvider.getAuthMethodId s = .ok (webAuthnRawIdHash rv))
    ∧ webAuthnRawIdHash (.str "credA") ≠ webAuthnRawIdHash (.str "credB") := by
  refine ⟨?_, ?_, ?_⟩
  · intro s1 s2 d1 d2 h1 h2 h3
    cases s1 with
    | mk o1 r1 a1 =>
      cases s2 with
      | mk o2 r2 a2 =>
        cases h1
        cases h2
        simp [WebAuthnProvider.getAuthMethodId, h3, Except.bind, bind]
  · intro env am d rv htype hparse hraw
    constructor
    · cases am with
      | mk t tok =>
        subst htype
        simp only [getAuthMethodId, getWebAuthnAuthMethodId] at *
        simp [hparse, hraw, webAuthnRawIdHash, Except.bind, bind]
    · intro s hs
      cases s with
      | mk o r a =>
        cases hs
        simp [WebAuthnProvider.getAuthMethodId, hraw, webAuthnRawIdHash, Except.bind, bind]
  · decide

/-- C9 witness: the dispatcher on a concrete WebAuthn auth method with `rawId`
`credA` yields the common hash function applied to that raw id. -/
theorem c9_webauthn_id_pure_and_agrees_witness :
    getAuthMethodId env1 ⟨.webAuthn, "\x7b\"rawId\":\"credA\"\x7d"⟩ =
      .ok (.str (webAuthnRawIdHash (.str "credA"))) :=
  (c9_webauthn_id_pure_and_agrees.2.1 env1 ⟨.webAuthn, "\x7b\"rawId\":\"credA\"\x7d"⟩
    (.obj (.cons "rawId" (.str "credA") .nil)) (.str "credA") rfl (by rfl) (by rfl)).1

/-- Characterization of the local signing path of `EthWalletProvider.authenticate`:
with caching off and a truthy address plus signing function supplied, the call
checksums the address, signs the SIWE text, and packages the AuthSig with the input
address verbatim; the collaborator is not consulted in any of these branches. -/
theorem ethAuth_local_eq (p : EthWalletState) (env : EthWalletEnv)
    (o : EthWalletAuthOptions) (a : String) (f : String → Except JsError String)
    (ha : o.address = some a) (hne : (a == "") = false) (hf : o.signMessage = some f)
    (hcache : cacheEffective (some o) = false) :
    EthWalletProvider.authenticate p env (some o) =
      (match getAddress a with
       | .error e => { result := .error e, state := p, calledCheckAndSign := false }
       | .ok ck =>
         match f (litSiweText p.domain p.origin ck "1"
             ((env.litChains (resolvedChain (some o))).getD 1)
             (resolvedExpiration env (some o))) with
         | .error e => { result := .error e, state := p, calledCheckAndSign := false }
         | .ok sg =>
           { result := .ok ⟨.ethWallet, authSigToJson (localAuthSig p env (some o) a ck sg)⟩,
             state := { p with authSig := some (localAuthSig p env (some o) a ck sg) },
             calledCheckAndSign := false }) := by
  simp [EthWalletProvider.authenticate, localAuthSig, hcache, ha, hf, hne, Option.bind]

/-- The local signing path when checksumming fails: the error propagates and the
instance state is unchanged. -/
theorem ethAuth_local_addr_err (p : EthWalletState) (env : EthWalletEnv)
    (o : EthWalletAuthOptions) (a : String) (f : String → Except JsError String)
    (e : JsError) (ha : o.address = some a) (hne : (a == "") = false)
    (hf : o.signMessage = some f) (hcache : cacheEffective (some o) = false)
    (hga : getAddress a = .error e) :
    EthWalletProvider.authenticate p env (some o) =
      { result := .error e, state := p, calledCheckAndSign := false } := by
  simp only [ethAuth_local_eq p env o a f ha hne hf hcache, hga]

/-- The local signing path when the signing function fails: the error propagates and
the instance state is unchanged. -/
theorem ethAuth_local_sign_err (p : EthWalletState) (env : EthWalletEnv)
    (o : EthWalletAuthOptions) (a : String) (f : String → Except JsError String)
    (ck : String) (e : JsError) (ha : o.address = some a) (hne : (a == "") = false)
    (hf : o.signMessage = some f) (hcache : cacheEffective (some o) = false)
    (hga : getAddress a = .ok ck)
    (hfs : f (litSiweText p.domain p.origin ck "1"
        ((env.litChains (resolvedChain (some o))).getD 1)
        (resolvedExpiration env (some o))) = .error e) :
    EthWalletProvider.authenticate p env (some o) =
      { result := .error e, state := p, calledCheckAndSign := false } := by
  simp only [ethAuth_local_eq p env o a f ha hne hf hcache, hga, hfs]

/-- The successful local signing path: the AuthSig is packaged, stored on the
instance, and returned inside the AuthMethod; the collaborator is not consulted. -/
theorem ethAuth_local_ok (p : EthWalletState) (env : EthWalletEnv)
    (o : EthWalletAuthOptions) (a : String) (f : String → Except JsError String)
    (ck sg : String) (ha : o.address = some a) (hne : (a == "") = false)
    (hf : o.signMessage = some f) (hcache : cacheEffective (some o) = false)
    (hga : getAddress a = .ok ck)
    (hfs : f (litSiweText p.domain p.origin ck "1"
        ((env.litChains (resolvedChain (some o))).getD 1)
        (resolvedExpiration env (some o))) = .ok sg) :
    EthWalletProvider.authenticate p env (some o) =
      { result := .ok ⟨.ethWallet, authSigToJson (localAuthSig p env (some o) a ck sg)⟩,
        state := { p with authSig := some (localAuthSig p env (some o) a ck sg) },
        calledCheckAndSign := false } := by
  simp only [ethAuth_local_eq p env o a f ha hne hf hcache, hga, hfs]

/-- C2 counterexample: authenticating with the all-lowercase form of the first EIP-55
example address and a signing stub packages an AuthSig whose `address` field (and
hence the identifier returned by `getAuthMethodId`) is the lowercase input, not its
EIP-55-checksummed form, which differs. -/
theorem c2_counterexample :
    ((EthWalletProvider.authenticate ethP0 ethEnv0 (some ethOpts0)).state.authSig.map
        AuthSig.address) = some addrLow
    ∧ getAddress addrLow = .ok addrCk
    ∧ addrLow ≠ addrCk
    ∧ EthWalletProvider.getAuthMethodId
        (EthWalletProvider.authenticate ethP0 ethEnv0 (some ethOpts0)).state =
          .ok addrLow := by
  refine ⟨?_, ?_, ?_, ?_⟩ <;> decide

/-- C2 (amended): on the local signing path, the EIP-55-checksummed form of the input
address is embedded in the signed SIWE message, but the packaged AuthSig's `address`
field — and hence the identifier later returned by `getAuthMethodId` — is the input
address verbatim (checksummed only if the caller already passed it checksummed). -/
theorem c2_authsig_address_verbatim :
    ∀ (p : EthWalletState) (env : EthWalletEnv) (o : EthWalletAuthOptions)
      (a : String) (f : String → Except JsError String),
      o.address = some a → a ≠ "" → o.signMessage = some f →
      cacheEffective (some o) = false →
      p.authSig = none →
      ∀ sig, (EthWalletProvider.authenticate p env (some o)).state.authSig = some sig →
        sig.address = a ∧
        EthWalletProvider.getAuthMethodId
            (EthWalletProvider.authenticate p env (some o)).state = .ok a ∧
        ∀ ck, getAddress a = .ok ck →
          sig.signedMessage =
            litSiweText p.domain p.origin ck "1"
              ((env.litChains (resolvedChain (some o))).getD 1)
              (resolvedExpiration env (some o)) := by
  intro p env o a f ha hne hf hcache hnone sig hsig
  have hne' : (a == "") = false := beq_eq_false_iff_ne.mpr hne
  cases hga : getAddress a with
  | error e =>
    rw [ethAuth_local_addr_err p env o a f e ha hne' hf hcache hga] at hsig
    simp [hnone] at hsig
  | ok ck =>
    cases hfs : f (litSiweText p.domain p.origin ck "1"
        ((env.litChains (resolvedChain (some o))).getD 1)
        (resolvedExpiration env (some o))) with
    | error e =>
      rw [ethAuth_local_sign_err p env o a f ck e ha hne' hf hcache hga hfs] at hsig
      simp [hnone] at hsig
    | ok sg =>
      have hok := ethAuth_local_ok p env o a f ck sg ha hne' hf hcache hga hfs
      rw [hok] at hsig ⊢
      have hsig2 : some (localAuthSig p env (some o) a ck sg) = some sig := hsig
      injection hsig2 with hsig3
      subst hsig3
      refine ⟨rfl, rfl, ?_⟩
      intro ck2 hck2
      injection hck2 with hck3
      subst hck3
      rfl

/-- C2 witness: the amended claim applied to the concrete lowercase-address call. -/
theorem c2_authsig_address_verbatim_witness :
    c2sig0.address = addrLow
    ∧ EthWalletProvider.getAuthMethodId
        (EthWalletProvider.authenticate ethP0 ethEnv0 (some ethOpts0)).state = .ok addrLow
    ∧ c2sig0.signedMessage =
        litSiweText ethP0.domain ethP0.origin addrCk "1"
          ((ethEnv0.litChains (resolvedChain (some ethOpts0))).getD 1)
          (resolvedExpiration ethEnv0 (some ethOpts0)) :=
  have h := c2_authsig_address_verbatim ethP0 ethEnv0 ethOpts0 addrLow
    (fun _ => .ok "0xsig") rfl (by decide) rfl rfl rfl c2sig0 (by rfl)
  ⟨h.1, h.2.1, h.2.2 addrCk (by decide)⟩

/-- C6 counterexample: with both `address` and `signMessage` supplied but `cache`
enabled, the `checkAndSignAuthMessage` collaborator is consulted, contradicting the
claim that supplying both always takes the local signing path. -/
theorem c6_counterexample :
    bothProvided (some ethOptsCache) = true ∧
    (EthWalletProvider.authenticate ethP0 ethEnv0 (some ethOptsCache)).calledCheckAndSign
      = true := by
  constructor <;> decide

/-- C6 (amended): the collaborator is consulted exactly when caching is in effect or
when a truthy address and a signing function are not both supplied; when both are
supplied and caching is off, the canonical SIWE message is built, signed with the
supplied function, and packaged without consulting the collaborator. -/
theorem c6_collaborator_exactly_when :
    (∀ (p : EthWalletState) (env : EthWalletEnv)
        (options : Option EthWalletAuthOptions),
        (EthWalletProvider.authenticate p env options).calledCheckAndSign =
          (cacheEffective options || !bothProvided options))
    ∧ (∀ (p : EthWalletState) (env : EthWalletEnv) (o : EthWalletAuthOptions)
        (a : String) (f : String → Except JsError String) (ck sg : String),
        o.address = some a → a ≠ "" → o.signMessage = some f →
        cacheEffective (some o) = false →
        getAddress a = .ok ck →
        f (litSiweText p.domain p.origin ck "1"
            ((env.litChains (resolvedChain (some o))).getD 1)
            (resolvedExpiration env (some o))) = .ok sg →
        (EthWalletProvider.authenticate p env (some o)).result =
          .ok ⟨.ethWallet, authSigToJson (localAuthSig p env (some o) a ck sg)⟩
          ∧ (EthWalletProvider.authenticate p env (some o)).calledCheckAndSign
              = false) := by
  constructor
  · intro p env options
    cases options with
    | none =>
      simp [EthWalletProvider.authenticate, cacheEffective, bothProvided,
        ethFinish_called, Option.bind]
    | some o =>
      by_cases hc : cacheEffective (some o) = true
      · simp [EthWalletProvider.authenticate, hc, ethFinish_called]
      · have hc2 : cacheEffective (some o) = false := by
          revert hc
          cases cacheEffective (some o) <;> simp
        cases ha : o.address with
        | none =>
          simp [EthWalletProvider.authenticate, hc2, ha, bothProvided,
            ethFinish_called, Option.bind]
        | some a =>
          cases hf : o.signMessage with
          | none =>
            simp [EthWalletProvider.authenticate, hc2, ha, hf, bothProvided,
              ethFinish_called, Option.bind]
          | some f =>
            by_cases hae : (a == "") = true
            · simp [EthWalletProvider.authenticate, hc2, ha, hf, hae, bothProvided,
                ethFinish_called, Option.bind, bne]
            · have hae2 : (a == "") = false := by
                revert hae
                cases a == "" <;> simp
              simp only [EthWalletProvider.authenticate, hc2, ha, hf, hae2,
                bothProvided, Option.bind, bne, Bool.false_or, Bool.not_not,
                Option.isSome_some, Bool.and_true]
              cases hga : getAddress a with
              | error e => simp [hae2]
              | ok ck =>
                cases hfs : f (litSiweText p.domain p.origin ck "1"
                    ((env.litChains (resolvedChain (some o))).getD 1)
                    (resolvedExpiration env (some o))) with
                | error e => simp [hfs, hae2]
                | ok sg => simp [hfs, hae2]
  · intro p env o a f ck sg ha hne hf hcache hga hfs
    have hne2 : (a == "") = false := beq_eq_false_iff_ne.mpr hne
    rw [ethAuth_local_ok p env o a f ck sg ha hne2 hf hcache hga hfs]
    exact ⟨rfl, rfl⟩

/-- C6 witness: the amended claim's local-path conclusion at the concrete call of the
end-to-end example. -/
theorem c6_collaborator_exactly_when_witness :
    (EthWalletProvider.authenticate ethP0 ethEnv0 (some ethOpts0)).result =
      .ok ⟨.ethWallet, authSigToJson (localAuthSig ethP0 ethEnv0 (some ethOpts0)
        addrLow addrCk "0xsig")⟩
    ∧ (EthWalletProvider.authenticate ethP0 ethEnv0 (some ethOpts0)).calledCheckAndSign
        = false :=
  c6_collaborator_exactly_when.2 ethP0 ethEnv0 ethOpts0 addrLow (fun _ => .ok "0xsig")
    addrCk "0xsig" rfl (by decide) rfl rfl (by decide) (by rfl)

end LitSdk
